import Mathlib

/-!
# ctmconv: mesh conversion between the structured (PLY) and compressed (CTM) formats

A shallow embedding of `tools/ctmconv.cpp`.

* C++ `string`s are lists of bytes; `toupper` is the "C" locale one (the program never
  calls `setlocale`).
* The OpenCTM engine (`openctm.h`), the allocator behind `vector::resize` and the file
  system are external: they are parameters (`World`), every one of their answers is
  arbitrary, and every call made to them is recorded as an `Event`.
* A C++ function that may throw is a `Prog`: it maps the program state to a result
  (`Except Exn _`), the state at exit and the events emitted meanwhile.  The state at
  exit is kept on the exceptional path too, because the `catch` blocks read it.
-/

namespace CtmConv

/-! ## Strings -/

/-- A C++ `std::string`: its bytes. -/
abbrev CString := List Nat

/-- A string literal of the source, as bytes. -/
def str (s : String) : CString := s.toList.map Char.toNat

/-- `toupper` of `<cctype>` in the "C" locale: only `a`..`z` (97..122) change. -/
def toupper (c : Nat) : Nat := if 97 ≤ c ∧ c ≤ 122 then c - 32 else c

/-- `UpperCase()`: a copy of the string with `toupper` applied at every position.
The source counts positions with an `unsigned int`, which covers every string
shorter than 2^32 bytes. -/
def UpperCase (aString : CString) : CString := aString.map toupper

/-- `aString.rfind(".")`: the position of the last `.` (byte 46), `none` for `npos`. -/
def rfind_dot : CString → Option Nat
  | [] => none
  | c :: cs =>
    match rfind_dot cs with
    | some p => some (p + 1)
    | none => if c = 46 then some 0 else none

/-- `ExtractFileExt()`: the part of the string from its last `.` on, empty without one. -/
def ExtractFileExt (aString : CString) : CString :=
  match rfind_dot aString with
  | some extPos => aString.drop extPos
  | none => []

/-- The three answers of the extension dispatch in `main`. -/
inductive Format
  | Structured
  | Compressed
  | Unsupported
  deriving DecidableEq, Repr

/-- The dispatch of `main` on a file name: `fileExt = UpperCase(ExtractFileExt(name))`
compared with `".PLY"`, then with `".CTM"`. -/
def resolve (name : CString) : Format :=
  let fileExt := UpperCase (ExtractFileExt name)
  if fileExt = str ".PLY" then Format.Structured
  else if fileExt = str ".CTM" then Format.Compressed
  else Format.Unsupported

/-- Lower-casing of one byte, used only to state case-insensitive comparison. -/
def tolower (c : Nat) : Nat := if 65 ≤ c ∧ c ≤ 90 then c + 32 else c

/-- Specification side: `name` ends with `suffix`, compared case-insensitively. -/
def EndsWithCI (name suffix : CString) : Prop :=
  ∃ front tail : CString, name = front ++ tail ∧ tail.map tolower = suffix.map tolower

/-- Specification side: the last `.` of `name` lies in a directory component, that is,
a `/` (byte 47) follows it. -/
def LastDotInDirectory (name : CString) : Prop :=
  ∃ front rest : CString, name = front ++ 46 :: rest ∧ 46 ∉ rest ∧ 47 ∈ rest

/-! ## Mesh buffers -/

/-- Modelled from the spec: `Vector3f` of `ply.h`, which is not part of the sources at
hand; a 3D float position (x, y, z).  The program never computes with a float, so each
one is its 32-bit pattern. -/
structure Vector3f where
  x : Nat
  y : Nat
  z : Nat
  deriving DecidableEq, Repr

/-- Modelled from the spec: `Vector2f` of `ply.h`, which is not part of the sources at
hand; a 2D float texture coordinate. -/
structure Vector2f where
  x : Nat
  y : Nat
  deriving DecidableEq, Repr

/-- The three buffers `points`, `indices`, `texCoords` that `main` hands to a load and
then to a save. -/
structure Mesh where
  points : List Vector3f
  indices : List Int
  texCoords : List Vector2f
  deriving DecidableEq, Repr

/-- Specification side: the mesh invariants of the data model. -/
def Mesh.Valid (m : Mesh) : Prop :=
  m.indices.length % 3 = 0 ∧
  (∀ v ∈ m.indices, 0 ≤ v ∧ v < (m.points.length : Int)) ∧
  (m.texCoords = [] ∨ m.texCoords.length = m.points.length)

/-- `vector::resize(n)`: the first `n` elements are kept, new ones are value-initialised. -/
def resize {α : Type} (v : List α) (n : Nat) (d : α) : List α :=
  v.take n ++ List.replicate (n - v.length) d

/-- What a callee leaves in a buffer it was given a pointer to: it writes `w` from the
start of the buffer; the size of the buffer cannot change. -/
def overwrite {α : Type} (buf w : List α) : List α :=
  w.take buf.length ++ buf.drop w.length

/-- A `CTMuint` stored in a `vector<int>` through the cast `(CTMuint*) &aIndices[0]`. -/
def toInt (u : Nat) : Int :=
  if u % 2 ^ 32 < 2 ^ 31 then (u % 2 ^ 32 : Nat) else ((u % 2 ^ 32 : Nat) : Int) - 2 ^ 32

/-! ## The external engine, allocator and file system -/

/-- Modelled from the spec: the property names of `openctm.h` (absent) that the source
passes to `ctmGetInteger`. -/
inductive CTMenum
  | CTM_VERTEX_COUNT
  | CTM_TRIANGLE_COUNT
  | CTM_HAS_TEX_COORDS
  deriving DecidableEq, Repr

/-- Modelled from the spec: the compression methods of `openctm.h` (absent); the source
names `CTM_METHOD_MG2` only. -/
inductive CTMmethod
  | CTM_METHOD_RAW
  | CTM_METHOD_MG1
  | CTM_METHOD_MG2
  deriving DecidableEq, Repr

/-- A decimal literal of the source: `digits * 10 ^ (- scale)`. -/
structure Decimal where
  digits : Nat
  scale : Nat
  deriving DecidableEq, Repr

/-- One item of the structured stream.  Modelled from the spec: the layout written by
`PLY_Export` and read by `PLY_Import` (`ply.h`, absent) is "vertex count, triangle
count, texcoord-presence flag, V vertex records (3 floats + optional 2 floats),
T triangle records (3 integer vertex ids)". -/
inductive Field
  | count (n : Nat)
  | flag (b : Bool)
  | float (bits : Nat)
  | vertexId (v : Int)
  deriving DecidableEq, Repr

/-- What the engine writes through the pointers given to `ctmGetMesh`. -/
structure Decoded where
  vertices : List Vector3f
  indices : List Nat
  texCoords : List Vector2f
  deriving DecidableEq, Repr

/-- Everything outside `ctmconv.cpp`: the OpenCTM engine with a state of type `σ` (a
context handle is a number, 0 the null handle), the constant `CTM_TRUE` of its header,
the allocator and the creation of output files.  Nothing is assumed about the answers.
The count parameters of `ctmGetMesh` and `ctmDefineMesh` are declared in the absent
header; they receive the value of the argument expression of the source. -/
structure World (σ : Type) where
  CTM_TRUE : Nat
  ctmNewContext : σ → Nat × σ
  ctmError : Nat → σ → Nat × σ
  ctmLoad : Nat → CString → σ → σ
  ctmGetInteger : Nat → CTMenum → σ → Nat × σ
  ctmGetMesh : Nat → Nat → Nat → Bool → σ → Decoded × σ
  ctmDefineMesh : Nat → List Vector3f → Nat → List Int → Nat → Option (List Vector2f) → σ → σ
  ctmCompressionMethod : Nat → CTMmethod → σ → σ
  ctmVertexPrecisionRel : Nat → Decimal → σ → σ
  ctmSave : Nat → CString → σ → σ
  ctmFreeContext : Nat → σ → σ
  canAllocate : Nat → Bool
  canCreate : CString → Bool

/-- The four load and save operations of the source. -/
inductive Fn
  | LoadPLY
  | LoadCTM
  | SavePLY
  | SaveCTM
  deriving DecidableEq, Repr

/-- What the program does to the outside, in order: lines written to `cout`, the calls
`main` makes to a load or save operation (with the buffers as they are at the call),
the opening of file streams, and every call into the engine with its arguments and its
return value.  A pointer argument is shown as the buffer it points to; a null pointer
as `none` (or `false` where the engine only writes). -/
inductive Event
  | cout (text : CString)
  | call (f : Fn) (aFileName : CString) (aPoints : List Vector3f) (aIndices : List Int)
      (aTexCoords : List Vector2f)
  | ifstream (aFileName : CString) (opened : Bool)
  | ofstream (aFileName : CString) (opened : Bool)
  | ctmNewContext (ret : Nat)
  | ctmError (aContext : Nat) (ret : Nat)
  | ctmLoad (aContext : Nat) (aFileName : CString)
  | ctmGetInteger (aContext : Nat) (aProperty : CTMenum) (ret : Nat)
  | ctmGetMesh (aContext : Nat) (aVertexCount : Nat) (aTriangleCount : Nat)
      (aTexCoords : Bool) (aNormals : Bool)
  | ctmDefineMesh (aContext : Nat) (aVertices : List Vector3f) (aVertexCount : Nat)
      (aIndices : List Int) (aTriangleCount : Nat) (aTexCoords : Option (List Vector2f))
      (aNormals : Option (List Vector3f))
  | ctmCompressionMethod (aContext : Nat) (aMethod : CTMmethod)
  | ctmVertexPrecisionRel (aContext : Nat) (aRelPrecision : Decimal)
  | ctmSave (aContext : Nat) (aFileName : CString)
  | ctmFreeContext (aContext : Nat)
  deriving DecidableEq, Repr

/-- The exceptions of the program, all derived from `std::exception`: the
`runtime_error`s the source throws, the `bad_alloc` of a refused `vector::resize`, and
`format_error`, which stands for what `PLY_Import` (`ply.h`, absent) throws on a stream
it cannot parse (the `FormatError` of the spec). -/
inductive Exn
  | runtime_error (what : CString)
  | bad_alloc
  | format_error
  deriving DecidableEq, Repr

/-- `e.what()`; the text of `format_error` is not known from the sources at hand. -/
def Exn.what : Exn → CString
  | Exn.runtime_error w => w
  | Exn.bad_alloc => str "std::bad_alloc"
  | Exn.format_error => str "FormatError"

/-- The program state: the state of the engine, the structured files on disk (name and
content, the first entry for a name counts), the three mesh buffers of `main`, which the
load and save operations receive by reference, and the local `CTMcontext ctm` of the
operation in progress. -/
structure State (σ : Type) where
  engine : σ
  files : List (CString × List Field)
  aPoints : List Vector3f
  aIndices : List Int
  aTexCoords : List Vector2f
  ctm : Nat

/-- The mesh held in the three buffers. -/
def State.mesh {σ : Type} (s : State σ) : Mesh :=
  ⟨s.aPoints, s.aIndices, s.aTexCoords⟩

/-- How a run of a piece of the program ends: normally or with an exception, in which
state, and after which events. -/
structure Outcome (σ α : Type) where
  result : Except Exn α
  state : State σ
  events : List Event

/-- A piece of the program, run from a state. -/
def Prog (σ α : Type) : Type := State σ → Outcome σ α

/-- Normal completion. -/
def Prog.pure {σ α : Type} (a : α) : Prog σ α := fun s => ⟨Except.ok a, s, []⟩

/-- The events `evs` happened before the run that ended as `r`. -/
def Outcome.after {σ α : Type} (evs : List Event) (r : Outcome σ α) : Outcome σ α :=
  ⟨r.result, r.state, evs ++ r.events⟩

/-- Continuation of a run that ended as `r`: `f` runs only after a normal end. -/
def Outcome.andThen {σ α β : Type} (r : Outcome σ α) (f : α → Prog σ β) : Outcome σ β :=
  match r.result with
  | Except.ok a => (f a r.state).after r.events
  | Except.error e => ⟨Except.error e, r.state, r.events⟩

/-- A run that ended as `r` inside a `try` block: the handler runs only after an
exception, from the state the block ended in. -/
def Outcome.recover {σ α : Type} (r : Outcome σ α) (handler : Exn → Prog σ α) : Outcome σ α :=
  match r.result with
  | Except.ok a => ⟨Except.ok a, r.state, r.events⟩
  | Except.error e => (handler e r.state).after r.events

/-- Sequencing: the second piece runs only when the first ends normally. -/
def Prog.bind {σ α β : Type} (m : Prog σ α) (f : α → Prog σ β) : Prog σ β := fun s =>
  (m s).andThen f

instance {σ : Type} : Monad (Prog σ) where
  pure := Prog.pure
  bind := Prog.bind

/-- The statement `throw e`. -/
def throwExn {σ α : Type} (e : Exn) : Prog σ α := fun s => ⟨Except.error e, s, []⟩

/-- The block `try body catch(exception &e) handler`: the handler starts in the state
the body ended in. -/
def tryCatch {σ α : Type} (body : Prog σ α) (handler : Exn → Prog σ α) : Prog σ α := fun s =>
  (body s).recover handler

/-- Emission of one event. -/
def emit {σ : Type} (e : Event) : Prog σ Unit := fun s => ⟨Except.ok (), s, [e]⟩

/-- Reading the local `ctm`. -/
def read_ctm {σ : Type} : Prog σ Nat := fun s => ⟨Except.ok s.ctm, s, []⟩

/-- Assignment to the local `ctm`. -/
def assign_ctm {σ : Type} (c : Nat) : Prog σ Unit := fun s =>
  ⟨Except.ok (), { s with ctm := c }, []⟩

/-- `aPoints.size()`. -/
def aPoints_size {σ : Type} : Prog σ Nat := fun s => ⟨Except.ok s.aPoints.length, s, []⟩

/-- `aIndices.size()`. -/
def aIndices_size {σ : Type} : Prog σ Nat := fun s => ⟨Except.ok s.aIndices.length, s, []⟩

/-- `aTexCoords.size()`. -/
def aTexCoords_size {σ : Type} : Prog σ Nat := fun s =>
  ⟨Except.ok s.aTexCoords.length, s, []⟩

/-- `aPoints.resize(n)`; growing the vector throws `bad_alloc` when the allocator
refuses. -/
def aPoints_resize {σ : Type} (W : World σ) (n : Nat) : Prog σ Unit := fun s =>
  if s.aPoints.length < n ∧ W.canAllocate n = false then ⟨Except.error Exn.bad_alloc, s, []⟩
  else ⟨Except.ok (), { s with aPoints := resize s.aPoints n ⟨0, 0, 0⟩ }, []⟩

/-- `aIndices.resize(n)`. -/
def aIndices_resize {σ : Type} (W : World σ) (n : Nat) : Prog σ Unit := fun s =>
  if s.aIndices.length < n ∧ W.canAllocate n = false then ⟨Except.error Exn.bad_alloc, s, []⟩
  else ⟨Except.ok (), { s with aIndices := resize s.aIndices n 0 }, []⟩

/-- `aTexCoords.resize(n)`. -/
def aTexCoords_resize {σ : Type} (W : World σ) (n : Nat) : Prog σ Unit := fun s =>
  if s.aTexCoords.length < n ∧ W.canAllocate n = false then
    ⟨Except.error Exn.bad_alloc, s, []⟩
  else ⟨Except.ok (), { s with aTexCoords := resize s.aTexCoords n ⟨0, 0⟩ }, []⟩

/-- `aTexCoords.clear()`. -/
def aTexCoords_clear {σ : Type} : Prog σ Unit := fun s =>
  ⟨Except.ok (), { s with aTexCoords := [] }, []⟩

/-! ## Calls into the engine -/

/-- The call `ctmNewContext()`. -/
def ctmNewContext {σ : Type} (W : World σ) : Prog σ Nat := fun s =>
  ⟨Except.ok (W.ctmNewContext s.engine).1, { s with engine := (W.ctmNewContext s.engine).2 },
    [Event.ctmNewContext (W.ctmNewContext s.engine).1]⟩

/-- The call `ctmError(aContext)`. -/
def ctmError {σ : Type} (W : World σ) (aContext : Nat) : Prog σ Nat := fun s =>
  ⟨Except.ok (W.ctmError aContext s.engine).1,
    { s with engine := (W.ctmError aContext s.engine).2 },
    [Event.ctmError aContext (W.ctmError aContext s.engine).1]⟩

/-- The call `ctmLoad(aContext, aFileName)`. -/
def ctmLoad {σ : Type} (W : World σ) (aContext : Nat) (aFileName : CString) : Prog σ Unit :=
  fun s =>
  ⟨Except.ok (), { s with engine := W.ctmLoad aContext aFileName s.engine },
    [Event.ctmLoad aContext aFileName]⟩

/-- The call `ctmGetInteger(aContext, aProperty)`, whose result is a `CTMuint`. -/
def ctmGetInteger {σ : Type} (W : World σ) (aContext : Nat) (aProperty : CTMenum) :
    Prog σ Nat := fun s =>
  ⟨Except.ok ((W.ctmGetInteger aContext aProperty s.engine).1 % 2 ^ 32),
    { s with engine := (W.ctmGetInteger aContext aProperty s.engine).2 },
    [Event.ctmGetInteger aContext aProperty
      ((W.ctmGetInteger aContext aProperty s.engine).1 % 2 ^ 32)]⟩

/-- The call `ctmGetMesh(aContext, &aPoints[0].x, aVertexCount, &aIndices[0],
aTriangleCount, texCoords, NULL)`: the engine writes into the buffers it was given. -/
def ctmGetMesh {σ : Type} (W : World σ) (aContext aVertexCount aTriangleCount : Nat)
    (texCoords : Bool) : Prog σ Unit := fun s =>
  ⟨Except.ok (),
    { s with
      engine := (W.ctmGetMesh aContext aVertexCount aTriangleCount texCoords s.engine).2
      aPoints := overwrite s.aPoints
        (W.ctmGetMesh aContext aVertexCount aTriangleCount texCoords s.engine).1.vertices
      aIndices := overwrite s.aIndices
        ((W.ctmGetMesh aContext aVertexCount aTriangleCount texCoords s.engine).1.indices.map toInt)
      aTexCoords :=
        if texCoords then overwrite s.aTexCoords
          (W.ctmGetMesh aContext aVertexCount aTriangleCount texCoords s.engine).1.texCoords
        else s.aTexCoords },
    [Event.ctmGetMesh aContext aVertexCount aTriangleCount texCoords false]⟩

/-- The call `ctmDefineMesh(aContext, &aPoints[0].x, aVertexCount, &aIndices[0],
aTriangleCount, texCoords, NULL)`. -/
def ctmDefineMesh {σ : Type} (W : World σ) (aContext aVertexCount aTriangleCount : Nat)
    (texCoords : Bool) : Prog σ Unit := fun s =>
  ⟨Except.ok (),
    { s with
      engine := W.ctmDefineMesh aContext s.aPoints aVertexCount s.aIndices aTriangleCount
        (if texCoords then some s.aTexCoords else none) s.engine },
    [Event.ctmDefineMesh aContext s.aPoints aVertexCount s.aIndices aTriangleCount
      (if texCoords then some s.aTexCoords else none) none]⟩

/-- The call `ctmCompressionMethod(aContext, aMethod)`. -/
def ctmCompressionMethod {σ : Type} (W : World σ) (aContext : Nat) (aMethod : CTMmethod) :
    Prog σ Unit := fun s =>
  ⟨Except.ok (), { s with engine := W.ctmCompressionMethod aContext aMethod s.engine },
    [Event.ctmCompressionMethod aContext aMethod]⟩

/-- The call `ctmVertexPrecisionRel(aContext, aRelPrecision)`. -/
def ctmVertexPrecisionRel {σ : Type} (W : World σ) (aContext : Nat) (aRelPrecision : Decimal) :
    Prog σ Unit := fun s =>
  ⟨Except.ok (), { s with engine := W.ctmVertexPrecisionRel aContext aRelPrecision s.engine },
    [Event.ctmVertexPrecisionRel aContext aRelPrecision]⟩

/-- The call `ctmSave(aContext, aFileName)`. -/
def ctmSave {σ : Type} (W : World σ) (aContext : Nat) (aFileName : CString) : Prog σ Unit :=
  fun s =>
  ⟨Except.ok (), { s with engine := W.ctmSave aContext aFileName s.engine },
    [Event.ctmSave aContext aFileName]⟩

/-- The call `ctmFreeContext(aContext)`. -/
def ctmFreeContext {σ : Type} (W : World σ) (aContext : Nat) : Prog σ Unit := fun s =>
  ⟨Except.ok (), { s with engine := W.ctmFreeContext aContext s.engine },
    [Event.ctmFreeContext aContext]⟩

/-! ## The compressed codec -/

/-- `CheckCTMError()`: asks the engine for its last error and throws when it is not 0;
the message is built by `ss << "CTM failed with error code " << err`. -/
def CheckCTMError {σ : Type} (W : World σ) (aContext : Nat) : Prog σ Unit := do
  let err ← ctmError W aContext
  if err ≠ 0 then
    throwExn (Exn.runtime_error (str "CTM failed with error code " ++ str (Nat.repr err)))

/-- The `try` block of `LoadCTM()`. -/
def LoadCTM_try {σ : Type} (W : World σ) (aFileName : CString) : Prog σ Unit := do
  -- Create OpenCTM context
  assign_ctm (← ctmNewContext W)
  CheckCTMError W (← read_ctm)
  -- Import file
  CheckCTMError W (← read_ctm)
  ctmLoad W (← read_ctm) aFileName
  CheckCTMError W (← read_ctm)
  -- Extract mesh
  let vertCount ← ctmGetInteger W (← read_ctm) CTMenum.CTM_VERTEX_COUNT
  let triCount ← ctmGetInteger W (← read_ctm) CTMenum.CTM_TRIANGLE_COUNT
  aPoints_resize W vertCount
  aIndices_resize W (triCount * 3 % 2 ^ 32)
  let hasTexCoords ← ctmGetInteger W (← read_ctm) CTMenum.CTM_HAS_TEX_COORDS
  let texCoords ←
    if hasTexCoords = W.CTM_TRUE then do
      aTexCoords_resize W vertCount
      pure true
    else do
      aTexCoords_clear
      pure false
  ctmGetMesh W (← read_ctm) (← aPoints_size) ((← aIndices_size) / 3) texCoords
  CheckCTMError W (← read_ctm)
  -- Free OpenCTM context
  ctmFreeContext W (← read_ctm)
  assign_ctm 0

/-- The `catch(exception &e)` block of `LoadCTM()` and of `SaveCTM()`. -/
def CTM_catch {σ : Type} (W : World σ) (e : Exn) : Prog σ Unit := do
  if (← read_ctm) ≠ 0 then
    ctmFreeContext W (← read_ctm)
  throwExn e

/-- `LoadCTM()`. -/
def LoadCTM {σ : Type} (W : World σ) (aFileName : CString) : Prog σ Unit := do
  assign_ctm 0
  tryCatch (LoadCTM_try W aFileName) (CTM_catch W)

/-- The `try` block of `SaveCTM()`; the literal `0.01` of the source is `⟨1, 2⟩`. -/
def SaveCTM_try {σ : Type} (W : World σ) (aFileName : CString) : Prog σ Unit := do
  -- Create OpenCTM context
  assign_ctm (← ctmNewContext W)
  CheckCTMError W (← read_ctm)
  -- Define mesh
  let texCoords := decide ((← aTexCoords_size) > 0)
  ctmDefineMesh W (← read_ctm) (← aPoints_size) ((← aIndices_size) / 3) texCoords
  CheckCTMError W (← read_ctm)
  -- Export file
  ctmCompressionMethod W (← read_ctm) CTMmethod.CTM_METHOD_MG2
  CheckCTMError W (← read_ctm)
  ctmVertexPrecisionRel W (← read_ctm) ⟨1, 2⟩
  CheckCTMError W (← read_ctm)
  ctmSave W (← read_ctm) aFileName
  CheckCTMError W (← read_ctm)
  -- Free OpenCTM context
  ctmFreeContext W (← read_ctm)
  assign_ctm 0

/-- `SaveCTM()`. -/
def SaveCTM {σ : Type} (W : World σ) (aFileName : CString) : Prog σ Unit := do
  assign_ctm 0
  tryCatch (SaveCTM_try W aFileName) (CTM_catch W)

/-! ## The structured codec -/

/-- Modelled from the spec: the vertex records written by `PLY_Export` (`ply.h`, absent),
"one record per vertex", each "3 floats + optional 2 floats", in the order of the
in-memory sequences. -/
def PLY_exportVertices (hasTex : Bool) : List Vector3f → List Vector2f → List Field
  | [], _ => []
  | p :: ps, ts =>
    [Field.float p.x, Field.float p.y, Field.float p.z] ++
      ((if hasTex then [Field.float (ts.headD ⟨0, 0⟩).x, Field.float (ts.headD ⟨0, 0⟩).y]
        else []) ++
      PLY_exportVertices hasTex ps ts.tail)

/-- Modelled from the spec: the triangle records written by `PLY_Export` (`ply.h`,
absent), "one record per triangle", each "3 integer vertex ids". -/
def PLY_exportTriangles : Nat → List Int → List Field
  | 0, _ => []
  | T + 1, a :: b :: c :: rest =>
    [Field.vertexId a, Field.vertexId b, Field.vertexId c] ++ PLY_exportTriangles T rest
  | _ + 1, _ => []

/-- Modelled from the spec: the stream `PLY_Export` (`ply.h`, absent) writes for a mesh:
"a header matching the Mesh's vertex/triangle counts and texcoord presence, then one
record per vertex and one record per triangle". -/
def PLY_stream (m : Mesh) : List Field :=
  [Field.count m.points.length, Field.count (m.indices.length / 3),
    Field.flag (decide (m.texCoords ≠ []))] ++
    (PLY_exportVertices (decide (m.texCoords ≠ [])) m.points m.texCoords ++
      PLY_exportTriangles (m.indices.length / 3) m.indices)

/-- Modelled from the spec: the vertex records read by `PLY_Import` (`ply.h`, absent),
"exactly that many vertex records (position, optional texcoord)"; `none` when "a record
is short/malformed". -/
def PLY_importVertices (hasTex : Bool) :
    Nat → List Field → Option (List Vector3f × List Vector2f × List Field)
  | 0, rest => some ([], [], rest)
  | V + 1, Field.float x :: Field.float y :: Field.float z :: rest =>
    if hasTex then
      match rest with
      | Field.float u :: Field.float v :: rest2 =>
        match PLY_importVertices hasTex V rest2 with
        | some (ps, ts, r) => some (⟨x, y, z⟩ :: ps, ⟨u, v⟩ :: ts, r)
        | none => none
      | _ => none
    else
      match PLY_importVertices hasTex V rest with
      | some (ps, ts, r) => some (⟨x, y, z⟩ :: ps, ts, r)
      | none => none
  | _ + 1, _ => none

/-- Modelled from the spec: the triangle records read by `PLY_Import` (`ply.h`, absent),
"that many triangle records (three vertex ids)"; "parsing must reject triangle records
referencing out-of-range vertex ids". -/
def PLY_importTriangles (V : Nat) : Nat → List Field → Option (List Int × List Field)
  | 0, rest => some ([], rest)
  | T + 1, Field.vertexId a :: Field.vertexId b :: Field.vertexId c :: rest =>
    if (0 ≤ a ∧ a < (V : Int)) ∧ (0 ≤ b ∧ b < (V : Int)) ∧ (0 ≤ c ∧ c < (V : Int)) then
      match PLY_importTriangles V T rest with
      | some (tris, r) => some (a :: b :: c :: tris, r)
      | none => none
    else none
  | _ + 1, _ => none

/-- Modelled from the spec: the parse done by `PLY_Import` (`ply.h`, absent): a header
"describing vertex count, triangle count, and presence of a texture-coordinate channel",
then the records; `FormatError` "if the header is unrecognized or a record is
short/malformed". -/
def PLY_parse : List Field → Except Exn Mesh
  | Field.count V :: Field.count T :: Field.flag hasTex :: body =>
    match PLY_importVertices hasTex V body with
    | some (ps, ts, rest) =>
      match PLY_importTriangles V T rest with
      | some (tris, _) => Except.ok ⟨ps, tris, ts⟩
      | none => Except.error Exn.format_error
    | none => Except.error Exn.format_error
  | _ => Except.error Exn.format_error

/-- The construction `ifstream fin(aFileName)`: the stream, `none` when `fin.fail()`. -/
def ifstream_open {σ : Type} (aFileName : CString) : Prog σ (Option (List Field)) := fun s =>
  ⟨Except.ok (s.files.lookup aFileName), s,
    [Event.ifstream aFileName (s.files.lookup aFileName).isSome]⟩

/-- The construction `ofstream fout(aFileName)`: creates or truncates the file; `false`
when `fout.fail()`. -/
def ofstream_open {σ : Type} (W : World σ) (aFileName : CString) : Prog σ Bool := fun s =>
  if W.canCreate aFileName then
    ⟨Except.ok true, { s with files := (aFileName, []) :: s.files },
      [Event.ofstream aFileName true]⟩
  else ⟨Except.ok false, s, [Event.ofstream aFileName false]⟩

/-- Modelled from the spec: the call `PLY_Import(fin, aPoints, aIndices, aTexCoords)`
(`ply.h`, absent): on success the three buffers hold the parsed mesh. -/
def PLY_Import {σ : Type} (fin : List Field) : Prog σ Unit := fun s =>
  match PLY_parse fin with
  | Except.ok m =>
    ⟨Except.ok (),
      { s with
        aPoints := m.points
        aIndices := m.indices
        aTexCoords := m.texCoords }, []⟩
  | Except.error e => ⟨Except.error e, s, []⟩

/-- Modelled from the spec: the call `PLY_Export(fout, aPoints, aIndices, aTexCoords)`
(`ply.h`, absent): the stream of the mesh becomes the content of the file. -/
def PLY_Export {σ : Type} (aFileName : CString) : Prog σ Unit := fun s =>
  ⟨Except.ok (), { s with files := (aFileName, PLY_stream s.mesh) :: s.files }, []⟩

/-- `LoadPLY()`. -/
def LoadPLY {σ : Type} (aFileName : CString) : Prog σ Unit := do
  match (← ifstream_open aFileName) with
  | none => throwExn (Exn.runtime_error (str "Could not open input file."))
  | some fin => PLY_Import fin

/-- `SavePLY()`. -/
def SavePLY {σ : Type} (W : World σ) (aFileName : CString) : Prog σ Unit := do
  if (← ofstream_open W aFileName) = false then
    throwExn (Exn.runtime_error (str "Could not open output file."))
  PLY_Export aFileName

/-! ## The driver -/

/-- `cout << text`. -/
def cout {σ : Type} (text : CString) : Prog σ Unit := emit (Event.cout text)

/-- `endl`. -/
def endl : CString := [10]

/-- A call from `main` to one of the four operations, recorded with its arguments. -/
def call {σ : Type} (f : Fn) (aFileName : CString) (body : Prog σ Unit) : Prog σ Unit :=
  fun s => (body s).after [Event.call f aFileName s.aPoints s.aIndices s.aTexCoords]

/-- The declarations `vector<Vector3f> points; vector<int> indices;
vector<Vector2f> texCoords;` of `main`: three empty buffers. -/
def declare_mesh {σ : Type} : Prog σ Unit := fun s =>
  ⟨Except.ok (),
    { s with
      aPoints := []
      aIndices := []
      aTexCoords := [] }, []⟩

/-- The `try` block of `main()`. -/
def main_try {σ : Type} (W : World σ) (inFile outFile : CString) : Prog σ Unit := do
  -- Define mesh
  declare_mesh
  -- Load PLY file
  cout (str "Loading " ++ inFile ++ str "..." ++ endl)
  let fileExt := UpperCase (ExtractFileExt inFile)
  if fileExt = str ".PLY" then
    call Fn.LoadPLY inFile (LoadPLY inFile)
  else if fileExt = str ".CTM" then
    call Fn.LoadCTM inFile (LoadCTM W inFile)
  else
    throwExn (Exn.runtime_error (str "Unknown input file extension."))
  -- Save file
  cout (str "Saving " ++ outFile ++ str "..." ++ endl)
  let fileExt := UpperCase (ExtractFileExt outFile)
  if fileExt = str ".PLY" then
    call Fn.SavePLY outFile (SavePLY W outFile)
  else if fileExt = str ".CTM" then
    call Fn.SaveCTM outFile (SaveCTM W outFile)
  else
    throwExn (Exn.runtime_error (str "Unknown output file extension."))

/-- The `catch(exception &e)` block of `main()`. -/
def main_catch {σ : Type} (e : Exn) : Prog σ Unit :=
  cout (str "Error: " ++ e.what ++ endl)

/-- `main()`, given `argv` (so `argc` is its length); the value returned is always 0. -/
def main {σ : Type} (W : World σ) (argv : List CString) : Prog σ Int :=
  if argv.length < 3 then do
    cout (str "Usage: " ++ argv.headD [] ++ str " infile outfile" ++ endl)
    pure 0
  else do
    tryCatch (main_try W (argv.getD 1 []) (argv.getD 2 [])) main_catch
    pure 0

/-! ## Reading the event sequence -/

/-- The calls that the claims name checkpoints: open, load, each integer-property query,
get mesh, define mesh, set compression method, set relative precision, save. -/
def Event.isCheckpoint : Event → Bool
  | Event.ctmNewContext _ => true
  | Event.ctmLoad _ _ => true
  | Event.ctmGetInteger _ _ _ => true
  | Event.ctmGetMesh _ _ _ _ _ => true
  | Event.ctmDefineMesh _ _ _ _ _ _ _ => true
  | Event.ctmCompressionMethod _ _ => true
  | Event.ctmVertexPrecisionRel _ _ => true
  | Event.ctmSave _ _ => true
  | _ => false

/-- The checkpoints other than the integer-property queries. -/
def Event.isCheckedCall : Event → Bool
  | Event.ctmGetInteger _ _ _ => false
  | ev => ev.isCheckpoint

/-- The last-error query `ctmError`. -/
def Event.isErrorQuery : Event → Bool
  | Event.ctmError _ _ => true
  | _ => false

/-- A call from `main` to a load operation. -/
def Event.isLoadCall : Event → Bool
  | Event.call Fn.LoadPLY _ _ _ _ => true
  | Event.call Fn.LoadCTM _ _ _ _ => true
  | _ => false

/-- A call from `main` to a save operation. -/
def Event.isSaveCall : Event → Bool
  | Event.call Fn.SavePLY _ _ _ _ => true
  | Event.call Fn.SaveCTM _ _ _ _ => true
  | _ => false

/-- A call from `main` to a load or save operation. -/
def Event.isCall : Event → Bool
  | Event.call _ _ _ _ _ => true
  | _ => false

/-- Specification side: in `evs`, every event selected by `p` is directly followed by a
last-error query. -/
def FollowedByErrorQuery (p : Event → Bool) (evs : List Event) : Prop :=
  ∀ (front : List Event) (ev : Event) (back : List Event),
    evs = front ++ ev :: back → p ev = true →
      ∃ (c e : Nat) (rest : List Event), back = Event.ctmError c e :: rest

/-- Specification side: in `evs`, after a last-error query that returned an error the
only further event is the release of that context (nothing for the null handle). -/
def FailureEndsRun (evs : List Event) : Prop :=
  ∀ (front : List Event) (c e : Nat) (back : List Event),
    evs = front ++ Event.ctmError c e :: back → e ≠ 0 →
      back = if c = 0 then [] else [Event.ctmFreeContext c]

/-- Specification side: `evs` ends with the release of `c`, the only release of `c`. -/
def ReleasedOnceAtEnd (c : Nat) (evs : List Event) : Prop :=
  ∃ front : List Event, evs = front ++ [Event.ctmFreeContext c] ∧
    Event.ctmFreeContext c ∉ front

/-- Decision procedure for `FollowedByErrorQuery`. -/
def followedByErrorQuery (p : Event → Bool) : List Event → Bool
  | [] => true
  | [ev] => !p ev
  | ev :: next :: rest =>
    (!p ev || next.isErrorQuery) && followedByErrorQuery p (next :: rest)

/-- Decision procedure for `FailureEndsRun`. -/
def failureEndsRun : List Event → Bool
  | [] => true
  | Event.ctmError c e :: rest =>
    (decide (e = 0) || decide (rest = if c = 0 then [] else [Event.ctmFreeContext c])) &&
      failureEndsRun rest
  | _ :: rest => failureEndsRun rest

/-- The load operation that the dispatch of `main` selects for a supported input name. -/
def loadOp {σ : Type} (W : World σ) (name : CString) : Prog σ Unit :=
  if resolve name = Format.Structured then LoadPLY name else LoadCTM W name

/-- The name of the load operation selected for a supported input name. -/
def loadFn (name : CString) : Fn :=
  if resolve name = Format.Structured then Fn.LoadPLY else Fn.LoadCTM

/-- The save operation that the dispatch of `main` selects for a supported output name. -/
def saveOp {σ : Type} (W : World σ) (name : CString) : Prog σ Unit :=
  if resolve name = Format.Structured then SavePLY W name else SaveCTM W name

/-- The name of the save operation selected for a supported output name. -/
def saveFn (name : CString) : Fn :=
  if resolve name = Format.Structured then Fn.SavePLY else Fn.SaveCTM

/-- The state in which `main` calls the load operation: the three buffers are empty. -/
def State.atLoad {σ : Type} (s : State σ) : State σ :=
  { s with
    aPoints := []
    aIndices := []
    aTexCoords := [] }

/-- The line `main` prints in its `catch` block for the exception `e`. -/
def errorLine (e : Exn) : Event := Event.cout (str "Error: " ++ e.what ++ endl)

/-- The line `main` prints before the load. -/
def loadingLine (inFile : CString) : Event :=
  Event.cout (str "Loading " ++ inFile ++ str "..." ++ endl)

/-- The line `main` prints before the save. -/
def savingLine (outFile : CString) : Event :=
  Event.cout (str "Saving " ++ outFile ++ str "..." ++ endl)

/-- A sample engine for the concrete runs below.  Its state is the pending error code:
`ctmError` returns it and clears it.  Every context is handle 1; the engine reports `V`
vertices, `T` triangles and the texture flag `hasTex`; the vertex-count query raises the
error `queryError` (0 for none); `ctmGetMesh` writes `d`.  Allocation and file creation
always succeed. -/
def sampleWorld (V T hasTex : Nat) (d : Decoded) (queryError : Nat) : World Nat where
  CTM_TRUE := 1
  ctmNewContext := fun g => (1, g)
  ctmError := fun _ g => (g, 0)
  ctmLoad := fun _ _ g => g
  ctmGetInteger := fun _ p g =>
    match p with
    | CTMenum.CTM_VERTEX_COUNT => (V, if queryError = 0 then g else queryError)
    | CTMenum.CTM_TRIANGLE_COUNT => (T, g)
    | CTMenum.CTM_HAS_TEX_COORDS => (hasTex, g)
  ctmGetMesh := fun _ _ _ _ g => (d, g)
  ctmDefineMesh := fun _ _ _ _ _ _ g => g
  ctmCompressionMethod := fun _ _ g => g
  ctmVertexPrecisionRel := fun _ _ g => g
  ctmSave := fun _ _ g => g
  ctmFreeContext := fun _ g => g
  canAllocate := fun _ => true
  canCreate := fun _ => true

/-- A start state: no pending engine error, no structured file on disk, empty buffers. -/
def emptyState : State Nat := ⟨0, [], [], [], [], 0⟩

/-- One triangle on three points. -/
def triangleMesh : Mesh := ⟨[⟨0, 0, 0⟩, ⟨1, 0, 0⟩, ⟨0, 1, 0⟩], [0, 1, 2], []⟩

/-- A start state whose buffers hold `triangleMesh`. -/
def triangleState : State Nat := ⟨0, [], triangleMesh.points, triangleMesh.indices, [], 0⟩

/-- A start state with the structured file `a.ply` of `triangleMesh` on disk. -/
def plyState : State Nat := ⟨0, [(str "a.ply", PLY_stream triangleMesh)], [], [], [], 0⟩

/-! # Theorems -/

/-! ## Format resolution -/

theorem str_PLY : str ".PLY" = [46, 80, 76, 89] := by decide
theorem str_CTM : str ".CTM" = [46, 67, 84, 77] := by decide
theorem str_ply : str ".ply" = [46, 112, 108, 121] := by decide
theorem str_ctm : str ".ctm" = [46, 99, 116, 109] := by decide

theorem rfind_dot_none (s : CString) : rfind_dot s = none ↔ 46 ∉ s := by
  induction s with
  | nil => simp [rfind_dot]
  | cons c cs ih =>
    unfold rfind_dot
    cases h : rfind_dot cs with
    | some p =>
      have : ¬ (46 ∉ cs) := fun hn => by rw [ih.mpr hn] at h; cases h
      simp at this
      simp [this]
    | none =>
      have h46 := ih.mp h
      by_cases hc : c = 46
      · simp [hc]
      · simp [hc, h46]; omega

/-- The extension of a name without a dot is empty. -/
theorem ExtractFileExt_no_dot (s : CString) (h : 46 ∉ s) : ExtractFileExt s = [] := by
  unfold ExtractFileExt
  rw [(rfind_dot_none s).mpr h]

theorem rfind_dot_append (front rest : CString) (h : 46 ∉ rest) :
    rfind_dot (front ++ 46 :: rest) = some front.length := by
  induction front with
  | nil => simp [rfind_dot, (rfind_dot_none rest).mpr h]
  | cons c cs ih => simp [rfind_dot, ih]

/-- The extension starts at the last dot. -/
theorem ExtractFileExt_append (front rest : CString) (h : 46 ∉ rest) :
    ExtractFileExt (front ++ 46 :: rest) = 46 :: rest := by
  unfold ExtractFileExt
  rw [rfind_dot_append front rest h]
  simp

theorem exists_last_dot (s : CString) (h : 46 ∈ s) :
    ∃ front rest : CString, s = front ++ 46 :: rest ∧ 46 ∉ rest := by
  induction s with
  | nil => simp at h
  | cons c cs ih =>
    by_cases hcs : 46 ∈ cs
    · obtain ⟨f, r, hfr, hr⟩ := ih hcs
      exact ⟨c :: f, r, by simp [hfr], hr⟩
    · have : c = 46 := by
        rcases List.mem_cons.mp h with h1 | h1
        · exact h1.symm
        · exact absurd h1 hcs
      exact ⟨[], cs, by simp [this], hcs⟩

theorem toupper_eq_upper (c u : Nat) (hu : 65 ≤ u ∧ u ≤ 90) :
    toupper c = u ↔ (c = u ∨ c = u + 32) := by
  unfold toupper; split <;> omega

theorem tolower_eq_lower (c l : Nat) (hl : 97 ≤ l ∧ l ≤ 122) :
    tolower c = l ↔ (c = l ∨ c + 32 = l) := by
  unfold tolower; split <;> omega

theorem toupper_eq_dot (c : Nat) : toupper c = 46 ↔ c = 46 := by
  unfold toupper; split <;> omega

theorem tolower_eq_dot (c : Nat) : tolower c = 46 ↔ c = 46 := by
  unfold tolower; split <;> omega

/-- Upper-cased extension equal to a dot and three capitals, against the
case-insensitive suffix test with the matching small letters. -/
theorem ext_iff_endsWith (name : CString) (a b c : Nat)
    (ha : 65 ≤ a ∧ a ≤ 90) (hb : 65 ≤ b ∧ b ≤ 90) (hc : 65 ≤ c ∧ c ≤ 90) :
    UpperCase (ExtractFileExt name) = [46, a, b, c] ↔
      EndsWithCI name [46, a + 32, b + 32, c + 32] := by
  have la : tolower (a + 32) = a + 32 := by unfold tolower; split <;> omega
  have lb : tolower (b + 32) = b + 32 := by unfold tolower; split <;> omega
  have lc : tolower (c + 32) = c + 32 := by unfold tolower; split <;> omega
  have ld : tolower 46 = 46 := by decide
  constructor
  · intro h
    by_cases hd : 46 ∈ name
    · obtain ⟨front, rest, hname, hrest⟩ := exists_last_dot name hd
      rw [hname, ExtractFileExt_append front rest hrest] at h
      match rest, h with
      | [x, y, z], h =>
        simp [UpperCase] at h
        obtain ⟨_, hx, hy, hz⟩ := h
        refine ⟨front, [46, x, y, z], hname, ?_⟩
        simp only [List.map, la, lb, lc]
        rw [toupper_eq_upper _ _ ha] at hx
        rw [toupper_eq_upper _ _ hb] at hy
        rw [toupper_eq_upper _ _ hc] at hz
        have e1 : tolower 46 = 46 := by decide
        have ex : tolower x = a + 32 := (tolower_eq_lower x (a + 32) (by omega)).mpr (by omega)
        have ey : tolower y = b + 32 := (tolower_eq_lower y (b + 32) (by omega)).mpr (by omega)
        have ez : tolower z = c + 32 := (tolower_eq_lower z (c + 32) (by omega)).mpr (by omega)
        rw [e1, ex, ey, ez]
      | [], h => simp [UpperCase] at h
      | [_], h => simp [UpperCase] at h
      | [_, _], h => simp [UpperCase] at h
      | _ :: _ :: _ :: _ :: _, h => simp [UpperCase] at h
    · rw [ExtractFileExt_no_dot name hd] at h
      simp [UpperCase] at h
  · rintro ⟨front, tail, hname, htail⟩
    simp only [List.map, la, lb, lc, ld] at htail
    match tail, htail with
    | [d, x, y, z], htail =>
      simp at htail
      obtain ⟨hd, hx, hy, hz⟩ := htail
      rw [tolower_eq_dot] at hd
      rw [tolower_eq_lower _ _ (by omega)] at hx hy hz
      subst hd
      have hrest : 46 ∉ [x, y, z] := by
        simp; omega
      rw [hname, ExtractFileExt_append front [x, y, z] hrest]
      simp only [UpperCase, List.map]
      have e1 : toupper 46 = 46 := by decide
      have ex : toupper x = a := (toupper_eq_upper x a ha).mpr (by omega)
      have ey : toupper y = b := (toupper_eq_upper y b hb).mpr (by omega)
      have ez : toupper z = c := (toupper_eq_upper z c hc).mpr (by omega)
      rw [e1, ex, ey, ez]
    | [], h => simp at h
    | [_], h => simp at h
    | [_, _], h => simp at h
    | [_, _, _], h => simp at h
    | _ :: _ :: _ :: _ :: _ :: _, h => simp at h

theorem ext_PLY_iff (name : CString) :
    UpperCase (ExtractFileExt name) = str ".PLY" ↔ EndsWithCI name (str ".ply") := by
  rw [str_PLY, str_ply]
  exact ext_iff_endsWith name 80 76 89 (by omega) (by omega) (by omega)

theorem ext_CTM_iff (name : CString) :
    UpperCase (ExtractFileExt name) = str ".CTM" ↔ EndsWithCI name (str ".ctm") := by
  rw [str_CTM, str_ctm]
  exact ext_iff_endsWith name 67 84 77 (by omega) (by omega) (by omega)

theorem resolve_Structured_iff (name : CString) :
    resolve name = Format.Structured ↔ UpperCase (ExtractFileExt name) = str ".PLY" := by
  unfold resolve
  simp only
  split
  · simp [*]
  · split
    · rename_i h1 h2
      simp [h2, str_PLY, str_CTM]
    · simp [*]

theorem resolve_Compressed_iff (name : CString) :
    resolve name = Format.Compressed ↔ UpperCase (ExtractFileExt name) = str ".CTM" := by
  unfold resolve
  simp only
  split
  · rename_i h
    simp [h, str_PLY, str_CTM]
  · split <;> simp [*]

theorem resolve_Unsupported_iff (name : CString) :
    resolve name = Format.Unsupported ↔
      (UpperCase (ExtractFileExt name) ≠ str ".PLY" ∧
       UpperCase (ExtractFileExt name) ≠ str ".CTM") := by
  unfold resolve
  simp only
  split
  · simp [*]
  · split <;> simp [*]

theorem not_endsWith_of_lastDotInDirectory (name : CString) (h : LastDotInDirectory name)
    (a b c : Nat) (ha : 65 ≤ a ∧ a ≤ 90) (hb : 65 ≤ b ∧ b ≤ 90) (hc : 65 ≤ c ∧ c ≤ 90) :
    UpperCase (ExtractFileExt name) ≠ [46, a, b, c] := by
  obtain ⟨front, rest, hname, hdot, hslash⟩ := h
  rw [hname, ExtractFileExt_append front rest hdot]
  intro hEq
  have : toupper 47 ∈ UpperCase (46 :: rest) := by
    unfold UpperCase
    exact List.mem_map_of_mem toupper (List.mem_cons_of_mem _ hslash)
  rw [hEq] at this
  have e : toupper 47 = 47 := by decide
  rw [e] at this
  simp at this
  omega

/-- C1: the extension dispatch of `main` is a function from file names to
`Structured`, `Compressed`, `Unsupported` (one answer per name); the answer is
`Structured` exactly for names ending in ".ply" compared case-insensitively,
`Compressed` exactly for names ending in ".ctm" compared case-insensitively, and
`Unsupported` for every other name, among them the names without a `.` and the names
whose last `.` lies in a directory component. -/
theorem C1_resolve_by_extension (name : CString) :
    (resolve name = Format.Structured ↔ EndsWithCI name (str ".ply")) ∧
    (resolve name = Format.Compressed ↔ EndsWithCI name (str ".ctm")) ∧
    (resolve name = Format.Unsupported ↔
      (¬ EndsWithCI name (str ".ply") ∧ ¬ EndsWithCI name (str ".ctm"))) ∧
    (46 ∉ name → resolve name = Format.Unsupported) ∧
    (LastDotInDirectory name → resolve name = Format.Unsupported) := by
  refine ⟨?_, ?_, ?_, ?_, ?_⟩
  · rw [resolve_Structured_iff, ext_PLY_iff]
  · rw [resolve_Compressed_iff, ext_CTM_iff]
  · rw [resolve_Unsupported_iff, ← ext_PLY_iff, ← ext_CTM_iff]
  · intro h
    rw [resolve_Unsupported_iff, ExtractFileExt_no_dot name h]
    constructor <;> decide
  · intro h
    rw [resolve_Unsupported_iff, str_PLY, str_CTM]
    exact ⟨not_endsWith_of_lastDotInDirectory name h 80 76 89 (by omega) (by omega) (by omega),
      not_endsWith_of_lastDotInDirectory name h 67 84 77 (by omega) (by omega) (by omega)⟩

/-! ## Running a program symbolically -/

section exec
variable {σ α β : Type}

theorem after_mk (evs : List Event) (r : Except Exn α) (s : State σ) (ev : List Event) :
    Outcome.after evs (Outcome.mk r s ev) = Outcome.mk r s (evs ++ ev) := rfl

theorem after_ite (c : Prop) [Decidable c] (evs : List Event) (A B : Outcome σ α) :
    Outcome.after evs (if c then A else B) =
      if c then Outcome.after evs A else Outcome.after evs B := by
  split <;> rfl

theorem andThen_ok (a : α) (s : State σ) (ev : List Event) (f : α → Prog σ β) :
    (Outcome.mk (Except.ok a) s ev).andThen f = (f a s).after ev := rfl

theorem andThen_error (e : Exn) (s : State σ) (ev : List Event) (f : α → Prog σ β) :
    (Outcome.mk (Except.error e : Except Exn α) s ev).andThen f =
      Outcome.mk (Except.error e) s ev := rfl

theorem andThen_ite (c : Prop) [Decidable c] (A B : Outcome σ α) (f : α → Prog σ β) :
    (if c then A else B).andThen f = if c then A.andThen f else B.andThen f := by
  split <;> rfl

theorem recover_ok (a : α) (s : State σ) (ev : List Event) (h : Exn → Prog σ α) :
    (Outcome.mk (Except.ok a) s ev).recover h = Outcome.mk (Except.ok a) s ev := rfl

theorem recover_error (e : Exn) (s : State σ) (ev : List Event) (h : Exn → Prog σ α) :
    (Outcome.mk (Except.error e : Except Exn α) s ev).recover h = (h e s).after ev := rfl

theorem recover_ite (c : Prop) [Decidable c] (A B : Outcome σ α) (h : Exn → Prog σ α) :
    (if c then A else B).recover h = if c then A.recover h else B.recover h := by
  split <;> rfl

theorem bind_apply (m : Prog σ α) (f : α → Prog σ β) (s : State σ) :
    (m >>= f) s = (m s).andThen f := rfl

theorem pure_apply (a : α) (s : State σ) :
    (pure a : Prog σ α) s = Outcome.mk (Except.ok a) s [] := rfl

theorem throwExn_apply (e : Exn) (s : State σ) :
    (throwExn e : Prog σ α) s = Outcome.mk (Except.error e) s [] := rfl

theorem tryCatch_apply (body : Prog σ α) (h : Exn → Prog σ α) (s : State σ) :
    tryCatch body h s = (body s).recover h := rfl

theorem prog_ite_apply (c : Prop) [Decidable c] (A B : Prog σ α) (s : State σ) :
    (if c then A else B) s = if c then A s else B s := by
  split <;> rfl

theorem CheckCTMError_apply (W : World σ) (c : Nat) (s : State σ) :
    CheckCTMError W c s =
      if (W.ctmError c s.engine).1 ≠ 0 then
        ⟨Except.error (Exn.runtime_error (str "CTM failed with error code " ++
            str (Nat.repr (W.ctmError c s.engine).1))),
          { s with engine := (W.ctmError c s.engine).2 },
          [Event.ctmError c (W.ctmError c s.engine).1]⟩
      else
        ⟨Except.ok (), { s with engine := (W.ctmError c s.engine).2 },
          [Event.ctmError c (W.ctmError c s.engine).1]⟩ := by
  simp only [CheckCTMError, ctmError, bind_apply, andThen_ok, prog_ite_apply, throwExn_apply,
    pure_apply, after_ite, after_mk, List.append_nil]

end exec

/-! ## Reading the event sequence: the decision procedures are sound -/

theorem FollowedByErrorQuery_of_check (p : Event → Bool) (evs : List Event)
    (h : followedByErrorQuery p evs = true) : FollowedByErrorQuery p evs := by
  induction evs with
  | nil => intro front ev back hEq; simp at hEq
  | cons a rest ih =>
    intro front ev back hEq hp
    cases front with
    | nil =>
      simp only [List.nil_append, List.cons.injEq] at hEq
      obtain ⟨rfl, rfl⟩ := hEq
      cases rest with
      | nil => simp [followedByErrorQuery, hp] at h
      | cons next rest2 =>
        simp only [followedByErrorQuery, hp, Bool.not_true, Bool.false_or, Bool.and_eq_true] at h
        cases next <;> simp [Event.isErrorQuery] at h
        exact ⟨_, _, _, rfl⟩
    | cons b front2 =>
      simp only [List.cons_append, List.cons.injEq] at hEq
      obtain ⟨rfl, hrest⟩ := hEq
      have hr : followedByErrorQuery p rest = true := by
        cases rest with
        | nil => simp at hrest
        | cons next rest2 =>
          simp only [followedByErrorQuery, Bool.and_eq_true] at h
          exact h.2
      exact ih hr front2 ev back hrest hp

theorem failureEndsRun_tail (a : Event) (rest : List Event)
    (h : failureEndsRun (a :: rest) = true) : failureEndsRun rest = true := by
  cases a <;> simp_all [failureEndsRun]

theorem FailureEndsRun_of_check (evs : List Event) (h : failureEndsRun evs = true) :
    FailureEndsRun evs := by
  induction evs with
  | nil => intro front c e back hEq; simp at hEq
  | cons a rest ih =>
    intro front c e back hEq he
    cases front with
    | nil =>
      simp only [List.nil_append, List.cons.injEq] at hEq
      obtain ⟨rfl, rfl⟩ := hEq
      simp only [failureEndsRun, he, decide_False, Bool.false_or, Bool.and_eq_true,
        decide_eq_true_eq] at h
      exact h.1
    | cons b front2 =>
      simp only [List.cons_append, List.cons.injEq] at hEq
      obtain ⟨rfl, hrest⟩ := hEq
      exact ih (failureEndsRun_tail _ _ h) front2 c e back hrest he

theorem ReleasedOnceAtEnd_of_last (c : Nat) (evs : List Event)
    (h1 : evs.getLast? = some (Event.ctmFreeContext c))
    (h2 : Event.ctmFreeContext c ∉ evs.dropLast) : ReleasedOnceAtEnd c evs :=
  ⟨evs.dropLast, (List.dropLast_append_getLast? _ h1).symm, h2⟩

/-- C10: `CheckCTMError` throws exactly when `ctmError` on the given context returns a
non-zero code; the exception then carries "CTM failed with error code " followed by the
decimal rendering of that very code; when the code is 0 it returns normally, and apart
from the query itself (the one event, and whatever the engine did to its own state)
nothing has changed. -/
theorem C10_CheckCTMError_raises_iff_error {σ : Type} (W : World σ) (aContext : Nat)
    (s : State σ) :
    ((∃ e, (CheckCTMError W aContext s).result = Except.error e) ↔
      (W.ctmError aContext s.engine).1 ≠ 0) ∧
    ((W.ctmError aContext s.engine).1 ≠ 0 →
      (CheckCTMError W aContext s).result =
        Except.error (Exn.runtime_error (str "CTM failed with error code " ++
          str (Nat.repr (W.ctmError aContext s.engine).1)))) ∧
    ((W.ctmError aContext s.engine).1 = 0 →
      (CheckCTMError W aContext s).result = Except.ok () ∧
      (CheckCTMError W aContext s).state =
        { s with engine := (W.ctmError aContext s.engine).2 }) ∧
    (CheckCTMError W aContext s).events =
      [Event.ctmError aContext (W.ctmError aContext s.engine).1] := by
  rw [CheckCTMError_apply]
  by_cases h : (W.ctmError aContext s.engine).1 = 0
  · simp [h]
  · simp [h]

/-! ## The event sequences of `LoadCTM` and `SaveCTM` -/

set_option maxHeartbeats 1600000 in
/-- Every exit of `LoadCTM`, read off its event sequence. -/
theorem LoadCTM_events {σ : Type} (W : World σ) (aFileName : CString) (s : State σ) :
    ((W.ctmNewContext s.engine).1 ≠ 0 →
      (LoadCTM W aFileName s).events.getLast? =
          some (Event.ctmFreeContext (W.ctmNewContext s.engine).1) ∧
        Event.ctmFreeContext (W.ctmNewContext s.engine).1 ∉
          (LoadCTM W aFileName s).events.dropLast) ∧
    failureEndsRun (LoadCTM W aFileName s).events = true ∧
    followedByErrorQuery Event.isCheckedCall (LoadCTM W aFileName s).events = true ∧
    (LoadCTM W aFileName s).events.all (fun ev => !ev.isCall) = true := by
  obtain ⟨evs, hevs⟩ : ∃ evs, (LoadCTM W aFileName s).events = evs := ⟨_, rfl⟩
  rw [hevs]
  by_cases h0 : (W.ctmNewContext s.engine).1 = 0 <;>
  simp only [LoadCTM, LoadCTM_try, CTM_catch, bind_apply, pure_apply, throwExn_apply,
    tryCatch_apply, assign_ctm, read_ctm, ctmNewContext, CheckCTMError_apply, ctmLoad,
    ctmGetInteger, aPoints_resize, aIndices_resize, aTexCoords_resize, aTexCoords_clear,
    ctmGetMesh, aPoints_size, aIndices_size, ctmFreeContext, andThen_ok, andThen_error,
    andThen_ite, after_mk, after_ite, recover_ok, recover_error, recover_ite, prog_ite_apply,
    List.nil_append, List.cons_append, List.append_nil, List.singleton_append, ne_eq, h0,
    not_true_eq_false, not_false_eq_true, if_true, if_false] at hevs <;>
  generalize W.ctmNewContext s.engine = r0 at hevs h0 ⊢ <;>
  generalize W.ctmError _ r0.2 = r1 at hevs <;>
  generalize W.ctmError _ r1.2 = r2 at hevs <;>
  generalize W.ctmLoad _ aFileName r2.2 = g3 at hevs <;>
  generalize W.ctmError _ g3 = r4 at hevs <;>
  generalize W.ctmGetInteger _ CTMenum.CTM_VERTEX_COUNT r4.2 = r5 at hevs <;>
  generalize W.ctmGetInteger _ CTMenum.CTM_TRIANGLE_COUNT r5.2 = r6 at hevs <;>
  generalize W.ctmGetInteger _ CTMenum.CTM_HAS_TEX_COORDS r6.2 = r7 at hevs <;>
  generalize W.ctmGetMesh _ _ _ true r7.2 = r8 at hevs <;>
  generalize W.ctmGetMesh _ _ _ false r7.2 = r9 at hevs <;>
  generalize W.ctmError _ r8.2 = r10 at hevs <;>
  generalize W.ctmError _ r9.2 = r11 at hevs <;>
  simp only [apply_ite Outcome.events] at hevs <;>
  split_ifs at hevs <;> subst hevs <;>
    simp_all [failureEndsRun, followedByErrorQuery, Event.isCheckedCall, Event.isCheckpoint,
      Event.isErrorQuery, Event.isCall]

set_option maxHeartbeats 1600000 in
/-- Every exit of `SaveCTM`, read off its event sequence. -/
theorem SaveCTM_events {σ : Type} (W : World σ) (aFileName : CString) (s : State σ) :
    ((W.ctmNewContext s.engine).1 ≠ 0 →
      (SaveCTM W aFileName s).events.getLast? =
          some (Event.ctmFreeContext (W.ctmNewContext s.engine).1) ∧
        Event.ctmFreeContext (W.ctmNewContext s.engine).1 ∉
          (SaveCTM W aFileName s).events.dropLast) ∧
    failureEndsRun (SaveCTM W aFileName s).events = true ∧
    followedByErrorQuery Event.isCheckpoint (SaveCTM W aFileName s).events = true ∧
    (SaveCTM W aFileName s).events.all (fun ev => !ev.isCall) = true := by
  obtain ⟨evs, hevs⟩ : ∃ evs, (SaveCTM W aFileName s).events = evs := ⟨_, rfl⟩
  rw [hevs]
  by_cases h0 : (W.ctmNewContext s.engine).1 = 0 <;>
  simp only [SaveCTM, SaveCTM_try, CTM_catch, bind_apply, pure_apply, throwExn_apply,
    tryCatch_apply, assign_ctm, read_ctm, ctmNewContext, CheckCTMError_apply, ctmDefineMesh,
    ctmCompressionMethod, ctmVertexPrecisionRel, ctmSave, aTexCoords_size,
    aPoints_size, aIndices_size, ctmFreeContext, andThen_ok, andThen_error,
    andThen_ite, after_mk, after_ite, recover_ok, recover_error, recover_ite, prog_ite_apply,
    List.nil_append, List.cons_append, List.append_nil, List.singleton_append, ne_eq, h0,
    not_true_eq_false, not_false_eq_true, if_true, if_false] at hevs <;>
  generalize W.ctmNewContext s.engine = r0 at hevs h0 ⊢ <;>
  generalize W.ctmError _ r0.2 = r1 at hevs <;>
  generalize W.ctmDefineMesh _ _ _ _ _ _ r1.2 = g2 at hevs <;>
  generalize W.ctmError _ g2 = r3 at hevs <;>
  generalize W.ctmCompressionMethod _ _ r3.2 = g4 at hevs <;>
  generalize W.ctmError _ g4 = r5 at hevs <;>
  generalize W.ctmVertexPrecisionRel _ _ r5.2 = g6 at hevs <;>
  generalize W.ctmError _ g6 = r7 at hevs <;>
  generalize W.ctmSave _ _ r7.2 = g8 at hevs <;>
  generalize W.ctmError _ g8 = r9 at hevs <;>
  simp only [apply_ite Outcome.events] at hevs <;>
  split_ifs at hevs <;> subst hevs <;>
    simp_all [failureEndsRun, followedByErrorQuery, Event.isCheckpoint,
      Event.isErrorQuery, Event.isCall]

/-- C4: whatever the engine answers, a run of `LoadCTM` or of `SaveCTM` in which
`ctmNewContext` returned a context (a non-null handle) releases that context exactly
once, and the release is the last event of the run: it happens before the function
returns or rethrows, on the success path and on every error path, and no engine call
follows it. -/
theorem C4_context_released_exactly_once {σ : Type} (W : World σ) (aFileName : CString)
    (s : State σ) (h : (W.ctmNewContext s.engine).1 ≠ 0) :
    ReleasedOnceAtEnd (W.ctmNewContext s.engine).1 (LoadCTM W aFileName s).events ∧
    ReleasedOnceAtEnd (W.ctmNewContext s.engine).1 (SaveCTM W aFileName s).events :=
  ⟨ReleasedOnceAtEnd_of_last _ _ ((LoadCTM_events W aFileName s).1 h).1
      ((LoadCTM_events W aFileName s).1 h).2,
    ReleasedOnceAtEnd_of_last _ _ ((SaveCTM_events W aFileName s).1 h).1
      ((SaveCTM_events W aFileName s).1 h).2⟩

/-- C4, at a concrete run: an engine whose vertex-count query raises error 2. -/
theorem C4_context_released_exactly_once_witness :
    ((sampleWorld 3 1 0 ⟨[], [], []⟩ 2).ctmNewContext emptyState.engine).1 ≠ 0 ∧
    ReleasedOnceAtEnd ((sampleWorld 3 1 0 ⟨[], [], []⟩ 2).ctmNewContext emptyState.engine).1
      (LoadCTM (sampleWorld 3 1 0 ⟨[], [], []⟩ 2) (str "a.ctm") emptyState).events ∧
    ReleasedOnceAtEnd ((sampleWorld 3 1 0 ⟨[], [], []⟩ 2).ctmNewContext emptyState.engine).1
      (SaveCTM (sampleWorld 3 1 0 ⟨[], [], []⟩ 2) (str "a.ctm") emptyState).events :=
  ⟨by decide,
    C4_context_released_exactly_once (sampleWorld 3 1 0 ⟨[], [], []⟩ 2) (str "a.ctm")
      emptyState (by decide)⟩

/-- C5, as the code has it: in `LoadCTM` every checkpoint other than the three
integer-property queries, and in `SaveCTM` every checkpoint, is directly followed by a
last-error query; and in both, once a last-error query has returned an error, the only
engine call still made is the release of the context. -/
theorem C5_checked_except_after_queries {σ : Type} (W : World σ) (aFileName : CString)
    (s : State σ) :
    FollowedByErrorQuery Event.isCheckedCall (LoadCTM W aFileName s).events ∧
    FailureEndsRun (LoadCTM W aFileName s).events ∧
    FollowedByErrorQuery Event.isCheckpoint (SaveCTM W aFileName s).events ∧
    FailureEndsRun (SaveCTM W aFileName s).events :=
  ⟨FollowedByErrorQuery_of_check _ _ (LoadCTM_events W aFileName s).2.2.1,
    FailureEndsRun_of_check _ (LoadCTM_events W aFileName s).2.1,
    FollowedByErrorQuery_of_check _ _ (SaveCTM_events W aFileName s).2.2.1,
    FailureEndsRun_of_check _ (SaveCTM_events W aFileName s).2.1⟩

/-- C5 fails as stated: with an engine whose vertex-count query raises error 2, `LoadCTM`
does not query the error state after that call; the triangle-count query, the
texture-flag query and `ctmGetMesh` are all made after the failing call, and the error
surfaces only at the check after `ctmGetMesh`. -/
theorem C5_counterexample_query_not_checked :
    (LoadCTM (sampleWorld 3 1 0 ⟨[], [], []⟩ 2) (str "a.ctm") emptyState).events =
      [Event.ctmNewContext 1, Event.ctmError 1 0, Event.ctmError 1 0,
        Event.ctmLoad 1 (str "a.ctm"), Event.ctmError 1 0,
        Event.ctmGetInteger 1 CTMenum.CTM_VERTEX_COUNT 3,
        Event.ctmGetInteger 1 CTMenum.CTM_TRIANGLE_COUNT 1,
        Event.ctmGetInteger 1 CTMenum.CTM_HAS_TEX_COORDS 0,
        Event.ctmGetMesh 1 3 1 false false, Event.ctmError 1 2, Event.ctmFreeContext 1] ∧
    ¬ FollowedByErrorQuery Event.isCheckpoint
      (LoadCTM (sampleWorld 3 1 0 ⟨[], [], []⟩ 2) (str "a.ctm") emptyState).events := by
  have hev : (LoadCTM (sampleWorld 3 1 0 ⟨[], [], []⟩ 2) (str "a.ctm") emptyState).events =
      [Event.ctmNewContext 1, Event.ctmError 1 0, Event.ctmError 1 0,
        Event.ctmLoad 1 (str "a.ctm"), Event.ctmError 1 0,
        Event.ctmGetInteger 1 CTMenum.CTM_VERTEX_COUNT 3,
        Event.ctmGetInteger 1 CTMenum.CTM_TRIANGLE_COUNT 1,
        Event.ctmGetInteger 1 CTMenum.CTM_HAS_TEX_COORDS 0,
        Event.ctmGetMesh 1 3 1 false false, Event.ctmError 1 2, Event.ctmFreeContext 1] := by
    decide
  refine ⟨hev, ?_⟩
  intro hclaim
  rw [hev] at hclaim
  obtain ⟨c, e, rest, hback⟩ := hclaim
    [Event.ctmNewContext 1, Event.ctmError 1 0, Event.ctmError 1 0,
      Event.ctmLoad 1 (str "a.ctm"), Event.ctmError 1 0]
    (Event.ctmGetInteger 1 CTMenum.CTM_VERTEX_COUNT 3)
    [Event.ctmGetInteger 1 CTMenum.CTM_TRIANGLE_COUNT 1,
      Event.ctmGetInteger 1 CTMenum.CTM_HAS_TEX_COORDS 0,
      Event.ctmGetMesh 1 3 1 false false, Event.ctmError 1 2, Event.ctmFreeContext 1]
    rfl rfl
  simp at hback

set_option maxHeartbeats 1600000 in
/-- C7: for every mesh in the buffers and every run in which no last-error query
reports an error, the engine calls of `SaveCTM` other than those queries are, in this
order: open context; define mesh with vertex count `len(points)`, triangle count
`len(indices) / 3`, the index buffer, a texture-coordinate buffer exactly when
`texCoords` is not empty, and no normals; set compression method MG2; set relative
vertex precision 0.01; save to the given file name; release context.  Each of them but
the release is followed by one last-error query. -/
theorem C7_SaveCTM_call_sequence {σ : Type} (W : World σ) (aFileName : CString)
    (s : State σ)
    (hquiet : ∀ c e : Nat, Event.ctmError c e ∈ (SaveCTM W aFileName s).events → e = 0) :
    (SaveCTM W aFileName s).events.filter (fun ev => !ev.isErrorQuery) =
      [Event.ctmNewContext (W.ctmNewContext s.engine).1,
        Event.ctmDefineMesh (W.ctmNewContext s.engine).1 s.aPoints s.aPoints.length
          s.aIndices (s.aIndices.length / 3)
          (if s.aTexCoords = [] then none else some s.aTexCoords) none,
        Event.ctmCompressionMethod (W.ctmNewContext s.engine).1 CTMmethod.CTM_METHOD_MG2,
        Event.ctmVertexPrecisionRel (W.ctmNewContext s.engine).1 ⟨1, 2⟩,
        Event.ctmSave (W.ctmNewContext s.engine).1 aFileName,
        Event.ctmFreeContext (W.ctmNewContext s.engine).1] ∧
    (SaveCTM W aFileName s).events =
      [Event.ctmNewContext (W.ctmNewContext s.engine).1,
        Event.ctmError (W.ctmNewContext s.engine).1 0,
        Event.ctmDefineMesh (W.ctmNewContext s.engine).1 s.aPoints s.aPoints.length
          s.aIndices (s.aIndices.length / 3)
          (if s.aTexCoords = [] then none else some s.aTexCoords) none,
        Event.ctmError (W.ctmNewContext s.engine).1 0,
        Event.ctmCompressionMethod (W.ctmNewContext s.engine).1 CTMmethod.CTM_METHOD_MG2,
        Event.ctmError (W.ctmNewContext s.engine).1 0,
        Event.ctmVertexPrecisionRel (W.ctmNewContext s.engine).1 ⟨1, 2⟩,
        Event.ctmError (W.ctmNewContext s.engine).1 0,
        Event.ctmSave (W.ctmNewContext s.engine).1 aFileName,
        Event.ctmError (W.ctmNewContext s.engine).1 0,
        Event.ctmFreeContext (W.ctmNewContext s.engine).1] ∧
    (SaveCTM W aFileName s).result = Except.ok () := by
  obtain ⟨out, hout⟩ : ∃ out, SaveCTM W aFileName s = out := ⟨_, rfl⟩
  rw [hout] at hquiet ⊢
  have htex : (if s.aTexCoords = [] then none else some s.aTexCoords) =
      (if decide (s.aTexCoords.length > 0) = true then some s.aTexCoords else none) := by
    cases s.aTexCoords <;> simp
  rw [htex]
  simp only [SaveCTM, SaveCTM_try, CTM_catch, bind_apply, pure_apply, throwExn_apply,
    tryCatch_apply, assign_ctm, read_ctm, ctmNewContext, CheckCTMError_apply, ctmDefineMesh,
    ctmCompressionMethod, ctmVertexPrecisionRel, ctmSave, aTexCoords_size,
    aPoints_size, aIndices_size, ctmFreeContext, andThen_ok, andThen_error,
    andThen_ite, after_mk, after_ite, recover_ok, recover_error, recover_ite, prog_ite_apply,
    List.nil_append, List.cons_append, List.append_nil, List.singleton_append, ne_eq] at hout
  generalize W.ctmNewContext s.engine = r0 at hout ⊢
  generalize W.ctmError _ r0.2 = r1 at hout
  generalize W.ctmDefineMesh _ _ _ _ _ _ r1.2 = g2 at hout
  generalize W.ctmError _ g2 = r3 at hout
  generalize W.ctmCompressionMethod _ _ r3.2 = g4 at hout
  generalize W.ctmError _ g4 = r5 at hout
  generalize W.ctmVertexPrecisionRel _ _ r5.2 = g6 at hout
  generalize W.ctmError _ g6 = r7 at hout
  generalize W.ctmSave _ _ r7.2 = g8 at hout
  generalize W.ctmError _ g8 = r9 at hout
  split_ifs at hout <;> subst hout
  all_goals first
    | exact absurd (hquiet r0.1 r1.1 (by simp)) (by assumption)
    | exact absurd (hquiet r0.1 r3.1 (by simp)) (by assumption)
    | exact absurd (hquiet r0.1 r5.1 (by simp)) (by assumption)
    | exact absurd (hquiet r0.1 r7.1 (by simp)) (by assumption)
    | exact absurd (hquiet r0.1 r9.1 (by simp)) (by assumption)
    | (clear hquiet; simp_all [Event.isErrorQuery])

/-- C7, at a concrete run: the triangle mesh saved through an engine that reports no
error. -/
theorem C7_SaveCTM_call_sequence_witness :
    (SaveCTM (sampleWorld 3 1 0 ⟨[], [], []⟩ 0) (str "b.ctm") triangleState).events.filter
        (fun ev => !ev.isErrorQuery) =
      [Event.ctmNewContext 1,
        Event.ctmDefineMesh 1 triangleMesh.points 3 [0, 1, 2] 1 none none,
        Event.ctmCompressionMethod 1 CTMmethod.CTM_METHOD_MG2,
        Event.ctmVertexPrecisionRel 1 ⟨1, 2⟩,
        Event.ctmSave 1 (str "b.ctm"),
        Event.ctmFreeContext 1] :=
  (C7_SaveCTM_call_sequence (sampleWorld 3 1 0 ⟨[], [], []⟩ 0) (str "b.ctm") triangleState
    (by
      intro c e h
      have hev : (SaveCTM (sampleWorld 3 1 0 ⟨[], [], []⟩ 0) (str "b.ctm")
          triangleState).events =
          [Event.ctmNewContext 1, Event.ctmError 1 0,
            Event.ctmDefineMesh 1 triangleMesh.points 3 [0, 1, 2] 1 none none,
            Event.ctmError 1 0, Event.ctmCompressionMethod 1 CTMmethod.CTM_METHOD_MG2,
            Event.ctmError 1 0, Event.ctmVertexPrecisionRel 1 ⟨1, 2⟩, Event.ctmError 1 0,
            Event.ctmSave 1 (str "b.ctm"), Event.ctmError 1 0, Event.ctmFreeContext 1] := by
        decide
      rw [hev] at h
      simp at h
      exact h.2)).1

/-! ## What a successful `LoadCTM` leaves in the buffers -/

theorem resize_length {α : Type} (v : List α) (n : Nat) (d : α) : (resize v n d).length = n := by
  simp only [resize, List.length_append, List.length_take, List.length_replicate]
  omega

theorem overwrite_length {α : Type} (buf w : List α) : (overwrite buf w).length = buf.length := by
  simp only [overwrite, List.length_append, List.length_take, List.length_drop]
  omega

set_option maxHeartbeats 1600000 in
/-- The one successful path of `LoadCTM`: its events, and the buffers at exit in terms of
what the engine reported and wrote. -/
theorem LoadCTM_success {σ : Type} (W : World σ) (aFileName : CString) (s : State σ)
    (hok : (LoadCTM W aFileName s).result = Except.ok ()) :
    ∃ (c V T flag : Nat) (g : σ),
      V < 2 ^ 32 ∧ T < 2 ^ 32 ∧ flag < 2 ^ 32 ∧
      (LoadCTM W aFileName s).events =
        [Event.ctmNewContext c, Event.ctmError c 0, Event.ctmError c 0,
          Event.ctmLoad c aFileName, Event.ctmError c 0,
          Event.ctmGetInteger c CTMenum.CTM_VERTEX_COUNT V,
          Event.ctmGetInteger c CTMenum.CTM_TRIANGLE_COUNT T,
          Event.ctmGetInteger c CTMenum.CTM_HAS_TEX_COORDS flag,
          Event.ctmGetMesh c V (T * 3 % 2 ^ 32 / 3) (decide (flag = W.CTM_TRUE)) false,
          Event.ctmError c 0, Event.ctmFreeContext c] ∧
      (LoadCTM W aFileName s).state.aPoints =
        overwrite (resize s.aPoints V ⟨0, 0, 0⟩)
          (W.ctmGetMesh c V (T * 3 % 2 ^ 32 / 3) (decide (flag = W.CTM_TRUE)) g).1.vertices ∧
      (LoadCTM W aFileName s).state.aIndices =
        overwrite (resize s.aIndices (T * 3 % 2 ^ 32) 0)
          ((W.ctmGetMesh c V (T * 3 % 2 ^ 32 / 3) (decide (flag = W.CTM_TRUE)) g).1.indices.map
            toInt) ∧
      (LoadCTM W aFileName s).state.aTexCoords =
        (if flag = W.CTM_TRUE then
          overwrite (resize s.aTexCoords V ⟨0, 0⟩)
            (W.ctmGetMesh c V (T * 3 % 2 ^ 32 / 3) (decide (flag = W.CTM_TRUE)) g).1.texCoords
        else []) := by
  obtain ⟨out, hout⟩ : ∃ out, LoadCTM W aFileName s = out := ⟨_, rfl⟩
  rw [hout] at hok ⊢
  by_cases h0 : (W.ctmNewContext s.engine).1 = 0 <;>
  simp only [LoadCTM, LoadCTM_try, CTM_catch, bind_apply, pure_apply, throwExn_apply,
    tryCatch_apply, assign_ctm, read_ctm, ctmNewContext, CheckCTMError_apply, ctmLoad,
    ctmGetInteger, aPoints_resize, aIndices_resize, aTexCoords_resize, aTexCoords_clear,
    ctmGetMesh, aPoints_size, aIndices_size, ctmFreeContext, andThen_ok, andThen_error,
    andThen_ite, after_mk, after_ite, recover_ok, recover_error, recover_ite, prog_ite_apply,
    List.nil_append, List.cons_append, List.append_nil, List.singleton_append, ne_eq,
    resize_length, h0, not_true_eq_false, not_false_eq_true, if_true, if_false] at hout <;>
  generalize W.ctmNewContext s.engine = r0 at hout h0 <;>
  generalize W.ctmError _ r0.2 = r1 at hout <;>
  generalize W.ctmError _ r1.2 = r2 at hout <;>
  generalize W.ctmLoad _ aFileName r2.2 = g3 at hout <;>
  generalize W.ctmError _ g3 = r4 at hout <;>
  generalize W.ctmGetInteger _ CTMenum.CTM_VERTEX_COUNT r4.2 = r5 at hout <;>
  generalize W.ctmGetInteger _ CTMenum.CTM_TRIANGLE_COUNT r5.2 = r6 at hout <;>
  generalize W.ctmGetInteger _ CTMenum.CTM_HAS_TEX_COORDS r6.2 = r7 at hout <;>
  generalize W.ctmError _ (W.ctmGetMesh _ _ _ true r7.2).2 = r10 at hout <;>
  generalize W.ctmError _ (W.ctmGetMesh _ _ _ false r7.2).2 = r11 at hout <;>
  all_goals
    by_cases h1 : r1.1 = 0
    swap
    · rw [if_pos h1] at hout; subst hout; simp at hok
    rw [if_neg (not_not.mpr h1)] at hout
    by_cases h2 : r2.1 = 0
    swap
    · rw [if_pos h2] at hout; subst hout; simp at hok
    rw [if_neg (not_not.mpr h2)] at hout
    by_cases h4 : r4.1 = 0
    swap
    · rw [if_pos h4] at hout; subst hout; simp at hok
    rw [if_neg (not_not.mpr h4)] at hout
    split at hout
    · subst hout; simp at hok
    split at hout
    · subst hout; simp at hok
    split at hout
    · split at hout
      · subst hout; simp at hok
      · by_cases h10 : r10.1 = 0
        swap
        · rw [if_pos h10] at hout; subst hout; simp at hok
        rw [if_neg (not_not.mpr h10)] at hout
        subst hout
        refine ⟨r0.1, r5.1 % 2 ^ 32, r6.1 % 2 ^ 32, r7.1 % 2 ^ 32, r7.2,
          Nat.mod_lt _ (by norm_num), Nat.mod_lt _ (by norm_num), Nat.mod_lt _ (by norm_num), ?_⟩
        simp_all
    · by_cases h11 : r11.1 = 0
      swap
      · rw [if_pos h11] at hout; subst hout; simp at hok
      rw [if_neg (not_not.mpr h11)] at hout
      subst hout
      refine ⟨r0.1, r5.1 % 2 ^ 32, r6.1 % 2 ^ 32, r7.1 % 2 ^ 32, r7.2,
        Nat.mod_lt _ (by norm_num), Nat.mod_lt _ (by norm_num), Nat.mod_lt _ (by norm_num), ?_⟩
      simp_all

/-- What holds of the buffer sizes after a successful `LoadCTM`, for the counts `V`, `T`
and the flag the engine reported: `len(points) = V`, `len(indices) = 3 * T` reduced
modulo 2^32 (the product is formed in `CTMuint`), the triangle count passed to
`ctmGetMesh` is `len(indices) / 3`, and `texCoords` has length `V` or is empty according
to the flag.  When `3 * T < 2^32` this is `len(indices) = 3 * T` and triangle count `T`. -/
theorem LoadCTM_buffer_sizes {σ : Type} (W : World σ) (aFileName : CString) (s : State σ)
    (hok : (LoadCTM W aFileName s).result = Except.ok ()) (c V T flag : Nat)
    (hV : Event.ctmGetInteger c CTMenum.CTM_VERTEX_COUNT V ∈ (LoadCTM W aFileName s).events)
    (hT : Event.ctmGetInteger c CTMenum.CTM_TRIANGLE_COUNT T ∈ (LoadCTM W aFileName s).events)
    (hF : Event.ctmGetInteger c CTMenum.CTM_HAS_TEX_COORDS flag ∈
      (LoadCTM W aFileName s).events) :
    (LoadCTM W aFileName s).state.aPoints.length = V ∧
    (LoadCTM W aFileName s).state.aIndices.length = 3 * T % 2 ^ 32 ∧
    (∃ tex, Event.ctmGetMesh c V (3 * T % 2 ^ 32 / 3) tex false ∈
      (LoadCTM W aFileName s).events) ∧
    (LoadCTM W aFileName s).state.aTexCoords.length = (if flag = W.CTM_TRUE then V else 0) ∧
    (3 * T < 2 ^ 32 →
      (LoadCTM W aFileName s).state.aIndices.length = 3 * T ∧
      (LoadCTM W aFileName s).state.aIndices.length % 3 = 0 ∧
      ∃ tex, Event.ctmGetMesh c V T tex false ∈ (LoadCTM W aFileName s).events) := by
  obtain ⟨c0, V0, T0, flag0, g, _, _, _, hev, hP, hI, hX⟩ := LoadCTM_success W aFileName s hok
  rw [hev] at hV hT hF ⊢
  simp at hV hT hF
  obtain ⟨hc, hV⟩ := hV
  obtain ⟨_, hT⟩ := hT
  obtain ⟨_, hF⟩ := hF
  subst hc hV hT hF
  have hmul : T * 3 = 3 * T := Nat.mul_comm _ _
  rw [hmul] at hI hP hX
  have hlenI : (LoadCTM W aFileName s).state.aIndices.length = 3 * T % 2 ^ 32 := by
    rw [hI, overwrite_length, resize_length]
  have hlenP : (LoadCTM W aFileName s).state.aPoints.length = V := by
    rw [hP, overwrite_length, resize_length]
  have hlenX : (LoadCTM W aFileName s).state.aTexCoords.length =
      (if flag = W.CTM_TRUE then V else 0) := by
    rw [hX]
    split
    · rw [overwrite_length, resize_length]
    · rfl
  refine ⟨hlenP, hlenI, ⟨decide (flag = W.CTM_TRUE), by simp [hmul]⟩, hlenX, ?_⟩
  intro hlt
  rw [hlenI, Nat.mod_eq_of_lt hlt]
  refine ⟨rfl, by omega, ⟨decide (flag = W.CTM_TRUE), ?_⟩⟩
  have h3 : T * 3 % 2 ^ 32 / 3 = T := by
    rw [hmul, Nat.mod_eq_of_lt hlt]; omega
  rw [h3]
  simp

/-- C8, at the failing input: the engine reports 0 vertices, 1431655766 triangles, no
texture coordinates and no error.  `LoadCTM` succeeds, but `triCount * 3` wraps around
in `CTMuint` to 2: the index buffer has 2 elements, not `3 * T`; its length is not a
multiple of 3; and the triangle count passed to `ctmGetMesh` is 0, not `T`. -/
theorem C8_triangle_count_overflow :
    (LoadCTM (sampleWorld 0 1431655766 0 ⟨[], [], []⟩ 0) (str "a.ctm") emptyState).result =
      Except.ok () ∧
    (LoadCTM (sampleWorld 0 1431655766 0 ⟨[], [], []⟩ 0) (str "a.ctm") emptyState).events =
      [Event.ctmNewContext 1, Event.ctmError 1 0, Event.ctmError 1 0,
        Event.ctmLoad 1 (str "a.ctm"), Event.ctmError 1 0,
        Event.ctmGetInteger 1 CTMenum.CTM_VERTEX_COUNT 0,
        Event.ctmGetInteger 1 CTMenum.CTM_TRIANGLE_COUNT 1431655766,
        Event.ctmGetInteger 1 CTMenum.CTM_HAS_TEX_COORDS 0,
        Event.ctmGetMesh 1 0 0 false false, Event.ctmError 1 0, Event.ctmFreeContext 1] ∧
    (LoadCTM (sampleWorld 0 1431655766 0 ⟨[], [], []⟩ 0) (str "a.ctm")
      emptyState).state.aIndices.length = 2 ∧
    (LoadCTM (sampleWorld 0 1431655766 0 ⟨[], [], []⟩ 0) (str "a.ctm")
      emptyState).state.aIndices.length ≠ 3 * 1431655766 ∧
    (LoadCTM (sampleWorld 0 1431655766 0 ⟨[], [], []⟩ 0) (str "a.ctm")
      emptyState).state.aIndices.length % 3 ≠ 0 := by
  refine ⟨rfl, by decide, by decide, by decide, by decide⟩

/-! ## The driver -/

theorem getLast?_snoc {α : Type} (l : List α) (x : α) : (l ++ [x]).getLast? = some x := by
  simp

theorem getLast?_cons_snoc {α : Type} (a : α) (l : List α) (x : α) :
    (a :: (l ++ [x])).getLast? = some x :=
  getLast?_snoc (a :: l) x

theorem getLast?_cons_snoc₂ {α : Type} (a : α) (l : List α) (y x : α) :
    (a :: (l ++ [y, x])).getLast? = some x := by
  have h : a :: (l ++ [y, x]) = (a :: l ++ [y]) ++ [x] := by simp
  rw [h]
  exact getLast?_snoc _ x

theorem LoadPLY_events {σ : Type} (aFileName : CString) (s : State σ) :
    (LoadPLY aFileName s).events =
      [Event.ifstream aFileName (s.files.lookup aFileName).isSome] := by
  simp only [LoadPLY, ifstream_open, bind_apply, andThen_ok]
  cases h : s.files.lookup aFileName with
  | none => simp [throwExn_apply, after_mk]
  | some fin =>
    simp only [PLY_Import]
    cases PLY_parse fin <;> simp [after_mk]

theorem SavePLY_events {σ : Type} (W : World σ) (aFileName : CString) (s : State σ) :
    (SavePLY W aFileName s).events = [Event.ofstream aFileName (W.canCreate aFileName)] := by
  simp only [SavePLY, ofstream_open, bind_apply, andThen_ok, andThen_ite, prog_ite_apply,
    throwExn_apply, pure_apply, after_mk, after_ite, andThen_error, PLY_Export]
  cases h : W.canCreate aFileName <;> simp

theorem loadOp_no_call {σ : Type} (W : World σ) (name : CString) (s : State σ) :
    (loadOp W name s).events.filter Event.isCall = [] := by
  unfold loadOp
  split
  · rw [LoadPLY_events]; rfl
  · have h := (LoadCTM_events W name s).2.2.2
    rw [List.filter_eq_nil_iff]
    intro a ha
    have := List.all_eq_true.mp h a ha
    simpa using this

theorem saveOp_no_call {σ : Type} (W : World σ) (name : CString) (s : State σ) :
    (saveOp W name s).events.filter Event.isCall = [] := by
  unfold saveOp
  split
  · rw [SavePLY_events]; rfl
  · have h := (SaveCTM_events W name s).2.2.2
    rw [List.filter_eq_nil_iff]
    intro a ha
    have := List.all_eq_true.mp h a ha
    simpa using this

theorem declare_mesh_apply {σ : Type} (s : State σ) :
    (declare_mesh s : Outcome σ Unit) = Outcome.mk (Except.ok ()) s.atLoad [] := rfl

/-- The events of a run of `main` on two supported names, in terms of how the selected
load and save operations end. -/
theorem main_events_supported {σ : Type} (W : World σ) (prog inFile outFile : CString)
    (s : State σ) (hin : resolve inFile ≠ Format.Unsupported)
    (hout : resolve outFile ≠ Format.Unsupported) :
    (main W [prog, inFile, outFile] s).events =
      [loadingLine inFile, Event.call (loadFn inFile) inFile [] [] []] ++
        (loadOp W inFile s.atLoad).events ++
        (match (loadOp W inFile s.atLoad).result with
          | Except.error e => [errorLine e]
          | Except.ok _ =>
            [savingLine outFile,
              Event.call (saveFn outFile) outFile (loadOp W inFile s.atLoad).state.aPoints
                (loadOp W inFile s.atLoad).state.aIndices
                (loadOp W inFile s.atLoad).state.aTexCoords] ++
            (saveOp W outFile (loadOp W inFile s.atLoad).state).events ++
            (match (saveOp W outFile (loadOp W inFile s.atLoad).state).result with
              | Except.error e => [errorLine e]
              | Except.ok _ => [])) := by
  have hinS := resolve_Structured_iff inFile
  have hinU := resolve_Unsupported_iff inFile
  have houtS := resolve_Structured_iff outFile
  have houtU := resolve_Unsupported_iff outFile
  have hne : str ".CTM" ≠ str ".PLY" := by decide
  by_cases hiP : UpperCase (ExtractFileExt inFile) = str ".PLY" <;>
  by_cases hiC : UpperCase (ExtractFileExt inFile) = str ".CTM" <;>
  by_cases hoP : UpperCase (ExtractFileExt outFile) = str ".PLY" <;>
  by_cases hoC : UpperCase (ExtractFileExt outFile) = str ".CTM" <;>
  first
  | exact absurd (hinU.mpr ⟨hiP, hiC⟩) hin
  | exact absurd (houtU.mpr ⟨hoP, hoC⟩) hout
  | exact absurd (hiC.symm.trans hiP) hne
  | exact absurd (hoC.symm.trans hoP) hne
  | skip
  all_goals
    simp only [main, main_try, main_catch, loadOp, saveOp, loadFn, saveFn, hinS, houtS, hiP, hiC,
      hoP, hoC, hne, if_true, if_false, loadingLine, savingLine, errorLine,
      List.length_cons, List.length_nil, List.getD_cons_succ, List.getD_cons_zero,
      bind_apply, pure_apply, throwExn_apply, tryCatch_apply, prog_ite_apply, declare_mesh_apply, cout,
      emit, call, andThen_ok, andThen_error, after_mk, recover_ok, recover_error]
  all_goals generalize LoadPLY inFile s.atLoad = L1
  all_goals generalize LoadCTM W inFile s.atLoad = L2
  all_goals obtain ⟨res1, st1, evs1⟩ := L1
  all_goals obtain ⟨res2, st2, evs2⟩ := L2
  all_goals cases res1
  all_goals cases res2
  all_goals simp only [Nat.reduceAdd, Nat.lt_irrefl, if_false, andThen_ok, andThen_error, after_mk,
    recover_ok, recover_error, bind_apply, pure_apply, emit, call, main_catch, cout,
    List.nil_append, List.cons_append, List.append_nil, List.singleton_append]
  all_goals try rfl
  all_goals generalize SavePLY W outFile st1 = S1
  all_goals generalize SaveCTM W outFile st1 = S2
  all_goals generalize SavePLY W outFile st2 = S3
  all_goals generalize SaveCTM W outFile st2 = S4
  all_goals obtain ⟨res3, st3, evs3⟩ := S1
  all_goals obtain ⟨res4, st4, evs4⟩ := S2
  all_goals obtain ⟨res5, st5, evs5⟩ := S3
  all_goals obtain ⟨res6, st6, evs6⟩ := S4
  all_goals cases res3
  all_goals cases res4
  all_goals cases res5
  all_goals cases res6
  all_goals simp [andThen_ok, andThen_error, after_mk, recover_ok, recover_error, emit,
    main_catch, cout, pure_apply, bind_apply, State.atLoad]

/-- The events of a run of `main` whose input name has no supported extension. -/
theorem main_events_unsupported_input {σ : Type} (W : World σ)
    (prog inFile outFile : CString) (s : State σ)
    (hin : resolve inFile = Format.Unsupported) :
    (main W [prog, inFile, outFile] s).events =
      [loadingLine inFile,
        errorLine (Exn.runtime_error (str "Unknown input file extension."))] := by
  obtain ⟨hiP, hiC⟩ := (resolve_Unsupported_iff inFile).mp hin
  simp [main, main_try, main_catch, hiP, hiC, loadingLine, errorLine,
    bind_apply, pure_apply, throwExn_apply, tryCatch_apply, prog_ite_apply, declare_mesh_apply,
    cout, emit, andThen_ok, andThen_error, after_mk, recover_ok, recover_error]

/-- The events of a run of `main` whose input name is supported and whose output name
is not: the load operation runs before the output name is looked at. -/
theorem main_events_unsupported_output {σ : Type} (W : World σ)
    (prog inFile outFile : CString) (s : State σ)
    (hin : resolve inFile ≠ Format.Unsupported)
    (hout : resolve outFile = Format.Unsupported) :
    (main W [prog, inFile, outFile] s).events =
      [loadingLine inFile, Event.call (loadFn inFile) inFile [] [] []] ++
        (loadOp W inFile s.atLoad).events ++
        (match (loadOp W inFile s.atLoad).result with
          | Except.error e => [errorLine e]
          | Except.ok _ =>
            [savingLine outFile,
              errorLine (Exn.runtime_error (str "Unknown output file extension."))]) := by
  have hinS := resolve_Structured_iff inFile
  have hinU := resolve_Unsupported_iff inFile
  obtain ⟨hoP, hoC⟩ := (resolve_Unsupported_iff outFile).mp hout
  have hne : str ".CTM" ≠ str ".PLY" := by decide
  by_cases hiP : UpperCase (ExtractFileExt inFile) = str ".PLY" <;>
  by_cases hiC : UpperCase (ExtractFileExt inFile) = str ".CTM" <;>
  first
  | exact absurd (hinU.mpr ⟨hiP, hiC⟩) hin
  | exact absurd (hiC.symm.trans hiP) hne
  | skip
  all_goals
    simp only [main, main_try, main_catch, loadOp, loadFn, hinS, hiP, hiC,
      hoP, hoC, hne, if_true, if_false, loadingLine, savingLine, errorLine,
      List.length_cons, List.length_nil, List.getD_cons_succ, List.getD_cons_zero,
      bind_apply, pure_apply, throwExn_apply, tryCatch_apply, prog_ite_apply,
      declare_mesh_apply, cout, emit, call, andThen_ok, andThen_error, after_mk, recover_ok,
      recover_error]
  all_goals generalize LoadPLY inFile s.atLoad = L1
  all_goals generalize LoadCTM W inFile s.atLoad = L2
  all_goals obtain ⟨res1, st1, evs1⟩ := L1
  all_goals obtain ⟨res2, st2, evs2⟩ := L2
  all_goals cases res1
  all_goals cases res2
  all_goals simp [andThen_ok, andThen_error, after_mk, recover_ok, recover_error, emit,
    main_catch, cout, pure_apply, bind_apply, throwExn_apply, State.atLoad]

/-- C2 fails as stated: with the input `a.ply` (present on disk) and the output `b.obj`,
whose extension is not supported, `main` calls `LoadPLY` and opens the input file before
it reports the unknown output extension. -/
theorem C2_counterexample_load_precedes_output_check :
    resolve (str "b.obj") = Format.Unsupported ∧
    (main (sampleWorld 3 1 0 ⟨[], [], []⟩ 0) [str "ctmconv", str "a.ply", str "b.obj"]
        plyState).events =
      [loadingLine (str "a.ply"), Event.call Fn.LoadPLY (str "a.ply") [] [] [],
        Event.ifstream (str "a.ply") true, savingLine (str "b.obj"),
        errorLine (Exn.runtime_error (str "Unknown output file extension."))] ∧
    (Event.call Fn.LoadPLY (str "a.ply") [] [] []).isLoadCall = true := by
  refine ⟨by decide, by decide, rfl⟩

/-- C2, as the code has it: when the source name resolves to `Unsupported`, `main` prints
the loading line and the unknown-input-extension error and does nothing else (no load,
no save, no file or engine access).  When the source name is supported and the
destination name resolves to `Unsupported`, the only operation `main` calls is the load
selected for the source name, no save operation is called, and the run ends with the
error line of the load if the load failed, with the unknown-output-extension error
otherwise. -/
theorem C2_unsupported_format {σ : Type} (W : World σ) (prog inFile outFile : CString)
    (s : State σ) :
    (resolve inFile = Format.Unsupported →
      (main W [prog, inFile, outFile] s).events =
        [loadingLine inFile,
          errorLine (Exn.runtime_error (str "Unknown input file extension."))]) ∧
    (resolve inFile ≠ Format.Unsupported → resolve outFile = Format.Unsupported →
      (main W [prog, inFile, outFile] s).events.filter Event.isCall =
        [Event.call (loadFn inFile) inFile [] [] []] ∧
      (main W [prog, inFile, outFile] s).events.filter Event.isSaveCall = [] ∧
      (main W [prog, inFile, outFile] s).events.getLast? =
        some (errorLine
          (match (loadOp W inFile s.atLoad).result with
            | Except.error e => e
            | Except.ok _ => Exn.runtime_error (str "Unknown output file extension.")))) := by
  refine ⟨main_events_unsupported_input W prog inFile outFile s, ?_⟩
  intro hin hout
  rw [main_events_unsupported_output W prog inFile outFile s hin hout]
  have hnc := loadOp_no_call W inFile s.atLoad
  have hns : (loadOp W inFile s.atLoad).events.filter Event.isSaveCall = [] := by
    rw [List.filter_eq_nil_iff] at hnc ⊢
    intro a ha hsave
    apply hnc a ha
    cases a <;> simp_all [Event.isSaveCall, Event.isCall]
  have hl : (Event.call (loadFn inFile) inFile [] [] []).isSaveCall = false := by
    unfold loadFn; split <;> rfl
  have hc : (Event.call (loadFn inFile) inFile [] [] []).isCall = true := rfl
  have h1 : (loadingLine inFile).isCall = false := rfl
  have h2 : ∀ e, (errorLine e).isCall = false := fun _ => rfl
  have h3 : (savingLine outFile).isCall = false := rfl
  have h4 : (loadingLine inFile).isSaveCall = false := rfl
  have h5 : ∀ e, (errorLine e).isSaveCall = false := fun _ => rfl
  have h6 : (savingLine outFile).isSaveCall = false := rfl
  cases hres : (loadOp W inFile s.atLoad).result with
  | error e =>
    refine ⟨?_, ?_, ?_⟩
    · simp [List.filter_append, List.filter_cons, hnc, hc, h1, h2]
    · simp [List.filter_append, List.filter_cons, hns, hl, h4, h5]
    · simp only [List.cons_append, List.nil_append]
      exact getLast?_cons_snoc _ _ _
  | ok u =>
    refine ⟨?_, ?_, ?_⟩
    · simp [List.filter_append, List.filter_cons, hnc, hc, h1, h2, h3]
    · simp [List.filter_append, List.filter_cons, hns, hl, h4, h5, h6]
    · simp only [List.cons_append, List.nil_append]
      exact getLast?_cons_snoc₂ _ _ _ _

/-- C3: in a run of `main` on a supported source and a supported destination name, the
calls `main` makes are the load, first, and then at most one save: the save is called
(once, with the buffers the load left) exactly when the load ended normally.  If the
load throws, no save is called and the error line printed is that of the load's
exception; if the load ends normally and the save throws, the error line printed is
that of the save's exception. -/
theorem C3_import_then_export {σ : Type} (W : World σ) (prog inFile outFile : CString)
    (s : State σ) (hin : resolve inFile ≠ Format.Unsupported)
    (hout : resolve outFile ≠ Format.Unsupported) :
    (main W [prog, inFile, outFile] s).events.filter Event.isCall =
      Event.call (loadFn inFile) inFile [] [] [] ::
        (match (loadOp W inFile s.atLoad).result with
          | Except.error _ => []
          | Except.ok _ =>
            [Event.call (saveFn outFile) outFile (loadOp W inFile s.atLoad).state.aPoints
              (loadOp W inFile s.atLoad).state.aIndices
              (loadOp W inFile s.atLoad).state.aTexCoords]) ∧
    (∀ e, (loadOp W inFile s.atLoad).result = Except.error e →
      (main W [prog, inFile, outFile] s).events.filter Event.isSaveCall = [] ∧
      (main W [prog, inFile, outFile] s).events.getLast? = some (errorLine e)) ∧
    (∀ e, (loadOp W inFile s.atLoad).result = Except.ok () →
      (saveOp W outFile (loadOp W inFile s.atLoad).state).result = Except.error e →
      (main W [prog, inFile, outFile] s).events.getLast? = some (errorLine e)) := by
  rw [main_events_supported W prog inFile outFile s hin hout]
  have hnc := loadOp_no_call W inFile s.atLoad
  have hnc2 := saveOp_no_call W outFile (loadOp W inFile s.atLoad).state
  have hns : (loadOp W inFile s.atLoad).events.filter Event.isSaveCall = [] := by
    rw [List.filter_eq_nil_iff] at hnc ⊢
    intro a ha hsave
    apply hnc a ha
    cases a <;> simp_all [Event.isSaveCall, Event.isCall]
  have hl : (Event.call (loadFn inFile) inFile [] [] []).isSaveCall = false := by
    unfold loadFn; split <;> rfl
  have hc : ∀ f n p i t, (Event.call f n p i t).isCall = true := fun _ _ _ _ _ => rfl
  have h1 : (loadingLine inFile).isCall = false := rfl
  have h2 : ∀ e, (errorLine e).isCall = false := fun _ => rfl
  have h3 : (savingLine outFile).isCall = false := rfl
  have h4 : (loadingLine inFile).isSaveCall = false := rfl
  have h5 : ∀ e, (errorLine e).isSaveCall = false := fun _ => rfl
  refine ⟨?_, ?_, ?_⟩
  · cases hres : (loadOp W inFile s.atLoad).result with
    | error e => simp [List.filter_append, List.filter_cons, hnc, hc, h1, h2]
    | ok u =>
      cases hres2 : (saveOp W outFile (loadOp W inFile s.atLoad).state).result <;>
        simp [List.filter_append, List.filter_cons, hnc, hnc2, hc, h1, h2, h3]
  · intro e he
    rw [he]
    refine ⟨?_, ?_⟩
    · simp [List.filter_append, List.filter_cons, hns, hl, h4, h5]
    · simp only [List.cons_append, List.nil_append]
      exact getLast?_cons_snoc _ _ _
  · intro e he he2
    rw [he, he2]
    have hlast : ∀ (A B : List Event) (a b c d x : Event),
        ([a, b] ++ A ++ ([c, d] ++ B ++ [x])).getLast? = some x := by
      intro A B a b c d x
      have hsplit : [a, b] ++ A ++ ([c, d] ++ B ++ [x]) = ([a, b] ++ A ++ ([c, d] ++ B)) ++ [x] := by
        simp
      rw [hsplit]
      exact getLast?_snoc _ x
    exact hlast _ _ _ _ _ _ _

/-- C3, at a concrete run: `a.ctm` to `b.ctm` with an engine whose vertex-count query
raises error 2, so that the load throws. -/
theorem C3_import_then_export_witness :
    resolve (str "a.ctm") ≠ Format.Unsupported ∧
    resolve (str "b.ctm") ≠ Format.Unsupported ∧
    (main (sampleWorld 3 1 0 ⟨[], [], []⟩ 2) [str "ctmconv", str "a.ctm", str "b.ctm"]
        emptyState).events.filter Event.isCall =
      [Event.call Fn.LoadCTM (str "a.ctm") [] [] []] :=
  ⟨by decide, by decide,
    (C3_import_then_export (sampleWorld 3 1 0 ⟨[], [], []⟩ 2) (str "ctmconv") (str "a.ctm")
      (str "b.ctm") emptyState (by decide) (by decide)).1⟩

theorem PLY_importVertices_export_noTex (ps : List Vector3f) (ts : List Vector2f)
    (rest : List Field) :
    PLY_importVertices false ps.length (PLY_exportVertices false ps ts ++ rest) =
      some (ps, [], rest) := by
  induction ps generalizing ts with
  | nil => simp [PLY_importVertices, PLY_exportVertices]
  | cons p ps ih =>
    simp [PLY_importVertices, PLY_exportVertices, ih]

theorem PLY_importVertices_export_tex (ps : List Vector3f) (ts : List Vector2f)
    (rest : List Field) (hlen : ts.length = ps.length) :
    PLY_importVertices true ps.length (PLY_exportVertices true ps ts ++ rest) =
      some (ps, ts, rest) := by
  induction ps generalizing ts with
  | nil =>
    cases ts with
    | nil => simp [PLY_importVertices, PLY_exportVertices]
    | cons t ts => simp at hlen
  | cons p ps ih =>
    cases ts with
    | nil => simp at hlen
    | cons t ts =>
      have hlen2 : ts.length = ps.length := by simpa using hlen
      simp [PLY_importVertices, PLY_exportVertices, ih ts hlen2]

theorem PLY_importTriangles_export (V T : Nat) (l : List Int) (rest : List Field)
    (hlen : l.length = 3 * T) (hrange : ∀ v ∈ l, 0 ≤ v ∧ v < (V : Int)) :
    PLY_importTriangles V T (PLY_exportTriangles T l ++ rest) = some (l, rest) := by
  induction T generalizing l with
  | zero =>
    have : l = [] := List.length_eq_zero.mp (by simpa using hlen)
    subst this
    simp [PLY_importTriangles, PLY_exportTriangles]
  | succ T ih =>
    match l, hlen, hrange with
    | a :: b :: c :: l2, hlen, hrange =>
      have hlen2 : l2.length = 3 * T := by
        simp only [List.length_cons] at hlen; omega
      have ha := hrange a (by simp)
      have hb := hrange b (by simp)
      have hc := hrange c (by simp)
      have hr2 : ∀ v ∈ l2, 0 ≤ v ∧ v < (V : Int) := fun v hv => hrange v (by simp [hv])
      simp [PLY_importTriangles, PLY_exportTriangles, ih l2 hlen2 hr2, ha, hb, hc]
    | [], hlen, _ => simp only [List.length_nil] at hlen; omega
    | [_], hlen, _ => simp only [List.length_cons, List.length_nil] at hlen; omega
    | [_, _], hlen, _ => simp only [List.length_cons, List.length_nil] at hlen; omega

/-- Parsing the stream written for a valid mesh gives the mesh back. -/
theorem PLY_parse_stream (m : Mesh) (h : m.Valid) : PLY_parse (PLY_stream m) = Except.ok m := by
  obtain ⟨h3, hrange, htex⟩ := h
  have hlen : m.indices.length = 3 * (m.indices.length / 3) := by omega
  obtain ⟨ps, is, ts⟩ := m
  simp only at h3 hrange htex hlen
  by_cases hts : ts = []
  · subst hts
    simp [PLY_parse, PLY_stream, PLY_importVertices_export_noTex,
      PLY_importTriangles_export ps.length (is.length / 3) is [] hlen hrange]
    have := PLY_importTriangles_export ps.length (is.length / 3) is [] hlen hrange
    simp at this
    rw [this]
  · have hl : ts.length = ps.length := by
      rcases htex with h | h
      · exact absurd h hts
      · exact h
    simp [PLY_parse, PLY_stream, hts, PLY_importVertices_export_tex ps ts _ hl]
    have := PLY_importTriangles_export ps.length (is.length / 3) is [] hlen hrange
    simp at this
    rw [this]

/-- C6: for every mesh that satisfies the mesh invariants, and every file name for which
`SavePLY` succeeds, `LoadPLY` on the same file (whatever the buffers held before) ends
normally and leaves in the buffers a mesh equal to the saved one: the same points, the
same indices, the same texture coordinates. -/
theorem C6_PLY_round_trip {σ : Type} (W : World σ) (aFileName : CString) (s s2 : State σ)
    (hvalid : s.mesh.Valid)
    (hsave : (SavePLY W aFileName s).result = Except.ok ())
    (hfiles : s2.files = (SavePLY W aFileName s).state.files) :
    (LoadPLY aFileName s2).result = Except.ok () ∧
    (LoadPLY aFileName s2).state.mesh = s.mesh := by
  have hstate : (SavePLY W aFileName s).state.files =
      (aFileName, PLY_stream s.mesh) :: (aFileName, []) :: s.files := by
    revert hsave
    simp only [SavePLY, ofstream_open, bind_apply, andThen_ok, andThen_ite, prog_ite_apply,
      throwExn_apply, pure_apply, after_mk, after_ite, andThen_error, PLY_Export]
    cases h : W.canCreate aFileName <;> simp [State.mesh]
  rw [hstate] at hfiles
  have hlook : s2.files.lookup aFileName = some (PLY_stream s.mesh) := by
    rw [hfiles]; simp [List.lookup]
  simp only [LoadPLY, ifstream_open, bind_apply, andThen_ok, hlook, PLY_Import,
    PLY_parse_stream s.mesh hvalid, after_mk]
  exact ⟨trivial, rfl⟩

/-- C6, at a concrete run: the triangle mesh, saved to `a.ply` and loaded back. -/
theorem C6_PLY_round_trip_witness :
    triangleState.mesh.Valid ∧
    (SavePLY (sampleWorld 3 1 0 ⟨[], [], []⟩ 0) (str "a.ply") triangleState).result =
      Except.ok () ∧
    (LoadPLY (str "a.ply")
      (SavePLY (sampleWorld 3 1 0 ⟨[], [], []⟩ 0) (str "a.ply") triangleState).state).result =
      Except.ok () ∧
    (LoadPLY (str "a.ply")
      (SavePLY (sampleWorld 3 1 0 ⟨[], [], []⟩ 0) (str "a.ply") triangleState).state).state.mesh =
      triangleState.mesh :=
  ⟨by simp [Mesh.Valid, triangleState, triangleMesh, State.mesh], rfl,
    C6_PLY_round_trip (sampleWorld 3 1 0 ⟨[], [], []⟩ 0) (str "a.ply") triangleState
      (SavePLY (sampleWorld 3 1 0 ⟨[], [], []⟩ 0) (str "a.ply") triangleState).state
      (by simp [Mesh.Valid, triangleState, triangleMesh, State.mesh]) rfl rfl⟩

end CtmConv
